import Mathlib

/-!
# cave-app: the template registry, the path constants and the Map view

A shallow embedding of

* `packages/create-cave-app/lib/constants.js`: the path constants and the
  registry `templateArgToTemplateDirname`;
* `templates/tutorial/client/src/views/map/Map.js`: the element tree the `Map`
  component returns, through `React.createElement` with its default props.

JavaScript objects are embedded as ordinary objects: a list of own data
properties in creation order together with the `[[Prototype]]` slot. The
operations are the ones the source runs: property assignment (`a[name] = name`),
`Object.assign`, `Array.prototype.reduce`, `Object.keys`, property read.
-/

set_option autoImplicit false

namespace CaveApp

/-! ## JavaScript values and ordinary objects -/

/-- A JavaScript value. Objects other than the ones built here are known by
identity only: an intrinsic (by its ECMAScript name) or a reference. -/
inductive JSValue where
  | undefined
  | null
  | bool (b : Bool)
  /-- A number, kept as the decimal literal that denotes it. -/
  | num (literal : String)
  | str (s : String)
  /-- A built-in object of the realm, such as `%Object.prototype%`. -/
  | intrinsic (name : String)
  /-- Any other object (function, array, plain object), known by identity. -/
  | ref (address : Nat)
  /-- The arrow function `viewport => dispatch(mapEvent.VIEWPORT_CHANGED, viewport)`
  of `Map.js`, closed over `dispatch`. -/
  | viewportChangeHandler (dispatch : JSValue)
  deriving DecidableEq, Repr

/-- The intrinsic `%Object.prototype%`, the prototype of every object literal. -/
def objectPrototype : JSValue := .intrinsic "%Object.prototype%"

/-- `Type(v)` is Object. -/
def JSValue.isObject : JSValue → Bool
  | .intrinsic _ => true
  | .ref _ => true
  | .viewportChangeHandler _ => true
  | _ => false

/-- An ordinary object: own enumerable data properties in order of creation,
and the `[[Prototype]]` slot. -/
structure JSObject where
  own : List (String × JSValue)
  proto : JSValue
  deriving DecidableEq, Repr

/-- The object literal `{}`. -/
def emptyObject : JSObject := ⟨[], objectPrototype⟩

/-- The value of a canonical decimal string read as digits, most significant
first: `none` as soon as a character is not a digit. -/
def digitsValue : List Char → Nat → Option Nat
  | [], acc => some acc
  | c :: cs, acc =>
    if '0' ≤ c ∧ c ≤ '9' then digitsValue cs (acc * 10 + (c.toNat - '0'.toNat)) else none

/-- The array index a property key denotes, if it is one: a canonical numeric
string (no sign, no leading zero except `"0"` itself) of value at most
`2^32 - 2`. -/
def arrayIndex? (key : String) : Option Nat :=
  match key.data with
  | [] => none
  | ['0'] => some 0
  | '0' :: _ => none
  | cs =>
    match digitsValue cs 0 with
    | some n => if n ≤ 4294967294 then some n else none
    | none => none

/-- Whether the key is an array index. -/
def isArrayIndex (key : String) : Bool := (arrayIndex? key).isSome

/-- The numeric value used to order array-index keys. -/
def indexOf (key : String) : Nat := (arrayIndex? key).getD 0

/-- Insertion of an array-index key into a list kept in ascending index order. -/
def insertIndexKey (key : String) : List String → List String
  | [] => [key]
  | k :: ks => if indexOf key ≤ indexOf k then key :: k :: ks else k :: insertIndexKey key ks

/-- The array-index keys, in ascending numeric order. -/
def sortIndexKeys : List String → List String
  | [] => []
  | k :: ks => insertIndexKey k (sortIndexKeys ks)

/-- `OrdinaryOwnPropertyKeys`: array-index keys in ascending numeric order,
then the other string keys in order of property creation. -/
def ownKeys (o : JSObject) : List String :=
  let ks := o.own.map Prod.fst
  sortIndexKeys (ks.filter isArrayIndex) ++ ks.filter (fun k => !isArrayIndex k)

/-- `Object.keys(o)`: every own property here is an enumerable data property. -/
def keys (o : JSObject) : List String := ownKeys o

/-- The value of the own property `key`, if the object has one. -/
def getOwn (o : JSObject) (key : String) : Option JSValue :=
  (o.own.find? (fun p => p.1 == key)).map Prod.snd

/-- `Object.prototype.hasOwnProperty.call(o, key)`. -/
def hasOwnProperty (o : JSObject) (key : String) : Bool := (getOwn o key).isSome

/-- The names of the members of `%Object.prototype%`. All are writable data
properties holding built-in functions, except the accessor `__proto__`. -/
def objectPrototypeMembers : List String :=
  ["constructor", "__defineGetter__", "__defineSetter__", "hasOwnProperty",
   "__lookupGetter__", "__lookupSetter__", "isPrototypeOf", "propertyIsEnumerable",
   "toString", "valueOf", "__proto__", "toLocaleString"]

/-- Reading the member `key` of `%Object.prototype%` on behalf of `receiver`:
the `__proto__` getter answers the receiver's prototype, `constructor` is
`%Object%`, the other members are built-in functions. -/
def objectPrototypeGet (receiver : JSObject) (key : String) : JSValue :=
  if key = "__proto__" then receiver.proto
  else if key = "constructor" then .intrinsic "%Object%"
  else if key ∈ objectPrototypeMembers then .intrinsic ("%Object.prototype." ++ key ++ "%")
  else .undefined

/-- Replace the value of an existing own property, keeping its position. -/
def updateOwn (key : String) (v : JSValue) : List (String × JSValue) → List (String × JSValue)
  | [] => []
  | p :: ps => if p.1 == key then (key, v) :: ps else p :: updateOwn key v ps

/-- The assignment `o[key] = v` (`[[Set]]`) on an ordinary object.

* An own property is overwritten in place.
* Otherwise the prototype chain is consulted. The only inherited accessor is
  `__proto__` of `%Object.prototype%`, reached from every prototype but `null`:
  its setter replaces the prototype when `v` is an object or `null` and does
  nothing for any other value. No own property is created.
* Otherwise (inherited writable data property, or none) a new own property is
  appended. -/
def set (o : JSObject) (key : String) (v : JSValue) : JSObject :=
  if hasOwnProperty o key then { o with own := updateOwn key v o.own }
  else if key = "__proto__" ∧ o.proto ≠ .null then
    if v.isObject ∨ v = .null then { o with proto := v } else o
  else { o with own := o.own ++ [(key, v)] }

/-- The property read `o[key]` (`[[Get]]`): the own property, else the member
inherited through the prototype. `none` when the prototype is an object this
development does not describe. -/
def get (o : JSObject) (key : String) : Option JSValue :=
  match getOwn o key with
  | some v => some v
  | none =>
    if o.proto = objectPrototype then some (objectPrototypeGet o key)
    else if o.proto = .null then some .undefined
    else none

/-- One source of `Object.assign`: for each own enumerable key of `source`, in
`ownKeys` order, `target[key] = source[key]`. -/
def assignFrom (target source : JSObject) : JSObject :=
  (ownKeys source).foldl (fun t k => set t k ((getOwn source k).getD .undefined)) target

/-- `Object.assign(target, ...sources)`. -/
def objectAssign (target : JSObject) (sources : List JSObject) : JSObject :=
  sources.foldl assignFrom target

/-- An object literal `{ k₁: v₁, ... }` with plain (non-computed, non
`__proto__`) keys: each property is defined directly on a fresh object. -/
def objectLiteral (props : List (String × JSValue)) : JSObject :=
  props.foldl (fun o p =>
    if hasOwnProperty o p.1 then { o with own := updateOwn p.1 p.2 o.own }
    else { o with own := o.own ++ [p] }) emptyObject

/-! ## `constants.js`: the registry -/

/-- `const DEFAULT_TEMPLATE_DIRNAME = 'base'`. -/
def DEFAULT_TEMPLATE_DIRNAME : String := "base"

/-- The reducer `(a, name) => { a[name] = name; return a }`. -/
def reducer (a : JSObject) (name : String) : JSObject := set a name (.str name)

/-- The registry `templateArgToTemplateDirname` of `constants.js`, as a function
of `MONOREPO_EXAMPLE_DIRNAMES` (the names `dirsOf` found):
`Object.assign({}, { 'default': DEFAULT_TEMPLATE_DIRNAME }, names.reduce(reducer, {}))`. -/
def templateArgToTemplateDirname (MONOREPO_EXAMPLE_DIRNAMES : List String) : JSObject :=
  objectAssign emptyObject
    [ objectLiteral [("default", .str DEFAULT_TEMPLATE_DIRNAME)],
      MONOREPO_EXAMPLE_DIRNAMES.foldl reducer emptyObject ]

/-! ## `constants.js`: the path constants -/

/-- The pieces of a path between its `/` separators (never an empty list). -/
def splitOnSlash : List Char → List (List Char)
  | [] => [[]]
  | c :: cs =>
    if c = '/' then [] :: splitOnSlash cs
    else
      match splitOnSlash cs with
      | [] => [[c]]
      | s :: ss => (c :: s) :: ss

/-- The segments written with `/` between them. -/
def joinWithSlash : List (List Char) → List Char
  | [] => []
  | [s] => s
  | s :: ss => s ++ '/' :: joinWithSlash ss

/-- One segment of `normalizeString`, the segments kept so far held last
first: empty and `.` segments are dropped, `..` removes the last kept segment
(kept itself only above the root of a relative path), any other is kept. -/
def normalizeStep (allowAboveRoot : Bool) (kept : List (List Char)) (seg : List Char) :
    List (List Char) :=
  if seg = [] ∨ seg = ['.'] then kept
  else if seg = ['.', '.'] then
    match kept with
    | [] => if allowAboveRoot then [seg] else []
    | top :: below =>
      if top = ['.', '.'] then (if allowAboveRoot then seg :: kept else kept) else below
  else seg :: kept

/-- Node's `normalizeString(path, allowAboveRoot, '/')`. -/
def normalizeString (path : List Char) (allowAboveRoot : Bool) : List Char :=
  joinWithSlash (((splitOnSlash path).foldl (normalizeStep allowAboveRoot) []).reverse)

/-- The loop of `path.resolve`, over the arguments from the last to the first
and then the working directory: empty entries are skipped, each entry is put in
front of what is resolved so far, and the loop stops at an absolute entry. -/
def resolveLoop (resolved : List Char) : List (List Char) → List Char × Bool
  | [] => (resolved, false)
  | p :: rest =>
    if p = [] then resolveLoop resolved rest
    else if p.head? = some '/' then (p ++ '/' :: resolved, true)
    else resolveLoop (p ++ '/' :: resolved) rest

/-- Modelled from the spec: `resolvePath` comes from `./util`, which is not among
the sources; it is read as Node's `path.resolve` for POSIX paths, `cwd` being
`process.cwd()`. -/
def resolvePath (cwd : String) (args : List String) : String :=
  let r := resolveLoop [] (args.reverse.map String.data ++ [cwd.data])
  let normalized := normalizeString r.1 (!r.2)
  if r.2 then ⟨'/' :: normalized⟩
  else if normalized = [] then "." else ⟨normalized⟩

/-- `const MONOREPO_ROOT = resolvePath(__dirname, './../../..')`. -/
def MONOREPO_ROOT (cwd dirname : String) : String :=
  resolvePath cwd [dirname, "./../../.."]

/-- `const MONOREPO_EXAMPLES_DIR = resolvePath(MONOREPO_ROOT, 'examples')`. -/
def MONOREPO_EXAMPLES_DIR (cwd dirname : String) : String :=
  resolvePath cwd [MONOREPO_ROOT cwd dirname, "examples"]

/-- `const MONOREPO_LIBS_DIR = resolvePath(MONOREPO_ROOT, 'packages')`. -/
def MONOREPO_LIBS_DIR (cwd dirname : String) : String :=
  resolvePath cwd [MONOREPO_ROOT cwd dirname, "packages"]

/-- `const PACKAGE_ROOT = resolvePath(MONOREPO_ROOT, 'packages', 'create-cave-app')`. -/
def PACKAGE_ROOT (cwd dirname : String) : String :=
  resolvePath cwd [MONOREPO_ROOT cwd dirname, "packages", "create-cave-app"]

/-- `const PACKAGE_LIBS_DIR = resolvePath(PACKAGE_ROOT, 'packages')`. -/
def PACKAGE_LIBS_DIR (cwd dirname : String) : String :=
  resolvePath cwd [PACKAGE_ROOT cwd dirname, "packages"]

/-- `const PACKAGE_TEMPLATES_DIR = resolvePath(PACKAGE_ROOT, 'templates')`. -/
def PACKAGE_TEMPLATES_DIR (cwd dirname : String) : String :=
  resolvePath cwd [PACKAGE_ROOT cwd dirname, "templates"]

/-- The absolute normalised path with the given segments: `/` for none,
`/a/b` for `a`, `b`. -/
def absolutePath (segments : List String) : String :=
  ⟨'/' :: joinWithSlash (segments.map String.data)⟩

/-- A segment of a normalised path: not empty, not `.` or `..`, without `/`. -/
def IsSegment (s : String) : Prop :=
  s.data ≠ [] ∧ s.data ≠ ['.'] ∧ s.data ≠ ['.', '.'] ∧ '/' ∉ s.data

instance (s : String) : Decidable (IsSegment s) := by
  unfold IsSegment; infer_instance

/-- `path.isAbsolute` on POSIX, for a value: a string that starts with `/`. -/
def isAbsolute : JSValue → Bool
  | .str s => s.data.head? = some '/'
  | _ => false

/-! ## `Map.js`: the element tree -/

/-- A React node: an element, or a value given as a child (`false` renders
nothing). In `element type props children`, `children` are the children given
to `createElement` and stand for `props.children`; `props` holds the other
props. The element's `key` and `ref` slots are not props and are left out. -/
inductive ReactNode where
  | value (v : JSValue)
  | element (type : String) (props : JSObject) (children : List ReactNode)

/-- The props React takes out of `config`: `RESERVED_PROPS` of `createElement`. -/
def RESERVED_PROPS : List String := ["key", "ref", "__self", "__source"]

/-- Drop the own property `key`, if any. -/
def removeOwn (o : JSObject) (key : String) : JSObject :=
  { o with own := o.own.filter (fun p => !(p.1 == key)) }

/-- What the imported packages supply and these sources do not show. -/
structure Packages where
  /-- The `defaultProps` a component type declares, if it declares any
  (`react-map-gl` does for `MapGL`). -/
  defaultProps : String → Option JSObject
  /-- The member `key` as read through an object known by identity only. -/
  member : JSValue → String → JSValue

/-- The property read `o[key]` as a value: `get`, and through a prototype this
development does not describe, the member the packages report. -/
def read (pkgs : Packages) (o : JSObject) (key : String) : JSValue :=
  match get o key with
  | some v => v
  | none => pkgs.member o.proto key

/-- The first loop of `createElement`: every own enumerable property of `config`
that is not reserved is assigned to a fresh props object. -/
def copyConfig (config : Option JSObject) : JSObject :=
  match config with
  | none => emptyObject
  | some c =>
    (ownKeys c).foldl
      (fun props k =>
        if k ∈ RESERVED_PROPS then props else set props k ((getOwn c k).getD .undefined))
      emptyObject

/-- Whether `props.children`, set from the children given, is other than
`undefined`: some children were given, and not the single child `undefined`. -/
def childrenDefined : List ReactNode → Bool
  | [] => false
  | [.value .undefined] => false
  | _ => true

/-- The last loop of `createElement`, "resolve default props": for each property
of `defaultProps`, `if (props[k] === undefined) props[k] = defaultProps[k]`. The
own properties in `props` leave `children` out when children were given
(`hasChildren`), so that key is decided by `defaultChildren` instead. -/
def resolveDefaults (pkgs : Packages) (defaults : JSObject) (hasChildren : Bool)
    (props : JSObject) : JSObject :=
  (ownKeys defaults).foldl
    (fun props k =>
      if k = "children" ∧ hasChildren = true then props
      else if read pkgs props k = .undefined then set props k ((getOwn defaults k).getD .undefined)
      else props)
    props

/-- The default of `children`, which applies when the single child given is
`undefined`. -/
def defaultChildren (defaults : JSObject) : List ReactNode → List ReactNode
  | [.value .undefined] =>
    match getOwn defaults "children" with
    | some d => [.value d]
    | none => [.value .undefined]
  | children => children

/-- `React.createElement(type, config, ...children)`, which JSX compiles to:
the props are copied out of `config`; when children are given `props.children`
is set to them, over any `children` that `config` carried; then the default
props of the type are resolved (a type that declares none has none to
resolve). -/
def createElement (pkgs : Packages) (type : String) (config : Option JSObject)
    (children : List ReactNode) : ReactNode :=
  let copied := copyConfig config
  let props := if children.isEmpty then copied else removeOwn copied "children"
  let defaults := (pkgs.defaultProps type).getD emptyObject
  .element type (resolveDefaults pkgs defaults (!children.isEmpty) props)
    (defaultChildren defaults children)

/-- `const MAPBOX_TOKEN = 'pk. ...'`. -/
def MAPBOX_TOKEN : String :=
  "pk.eyJ1IjoiYWJ1c3RhbWFtMSIsImEiOiJjamZ2cHR0eXk0MTZpMzNtc25ycWMxbW16In0.pxTjZY0-q7o3tMRCE5UGkg"

/-- What the `Map` component receives: the two selected values and `dispatch`. -/
structure MapProps where
  viewport : JSObject
  isConnected : Bool
  dispatch : JSValue

/-- The attributes written after the spread on `<MapGL>`, in source order. -/
def mapGLAttributes (dispatch : JSValue) : JSObject :=
  objectLiteral
    [ ("mapStyle", .str "mapbox://styles/mapbox/dark-v9"),
      ("onViewportChange", .viewportChangeHandler dispatch),
      ("mapboxApiAccessToken", .str MAPBOX_TOKEN),
      ("maxPitch", .num "59.9"),
      ("touchRotate", .bool true) ]

/-- The render function of `Map.js`:
`<Div><MapGL {...viewport} ...><DeckGLOverlay /><GroundRadial /></MapGL>{isConnected && <ControlOverlay />}</Div>`.
The spread attributes compile to `Object.assign({}, viewport, { ... })`. -/
def Map (pkgs : Packages) (p : MapProps) : ReactNode :=
  createElement pkgs "Div" none
    [ createElement pkgs "MapGL"
        (some (objectAssign emptyObject [p.viewport, mapGLAttributes p.dispatch]))
        [ createElement pkgs "DeckGLOverlay" none [],
          createElement pkgs "GroundRadial" none [] ],
      if p.isConnected then createElement pkgs "ControlOverlay" none []
      else .value (.bool false) ]

/-- The element types of a tree, parents before children, left to right. -/
def ReactNode.types : ReactNode → List String
  | .value _ => []
  | .element type _ children => type :: typesOfAll children
where
  /-- The element types of a list of sibling trees. -/
  typesOfAll : List ReactNode → List String
    | [] => []
    | n :: ns => n.types ++ typesOfAll ns

/-- The props of an element (of a value: none). -/
def ReactNode.props : ReactNode → JSObject
  | .value _ => emptyObject
  | .element _ props _ => props

/-- The children of an element (of a value: none). -/
def ReactNode.children : ReactNode → List ReactNode
  | .value _ => []
  | .element _ _ children => children

/-! ## The resolver -/

/-- The outcome of a resolution: the path found, or `TemplateNotFoundError`
with the requested name and the valid identifiers. -/
inductive Resolution where
  | path (p : String)
  | templateNotFoundError (requested : String) (validIdentifiers : List String)
  deriving DecidableEq, Repr

/-- Modelled from the spec: the resolver `resolve(requestedName?)` is not among
the sources. Following section 4.1: no identifier is replaced by `'default'`;
the identifier is looked up among the keys of the registry, the mapping from
identifier to directory; the mapped path is returned when its directory exists
(`dirExists`); otherwise, not found or directory gone, the resolution fails
with `TemplateNotFoundError` naming the identifier and listing the keys of the
registry. -/
def resolve (registry : JSObject) (dirExists : String → Bool) (requestedName : Option String) :
    Resolution :=
  let id := requestedName.getD "default"
  match getOwn registry id with
  | some (.str p) =>
    if dirExists p then .path p else .templateNotFoundError id (keys registry)
  | _ => .templateNotFoundError id (keys registry)

/-! ## Auxiliary definitions for the statements -/

/-- The value recorded for `key` in a list of own properties. -/
def lookupOwn (l : List (String × JSValue)) (key : String) : Option JSValue :=
  (l.find? (fun p => p.1 == key)).map Prod.snd

/-- Assigning `f k` to each key `k` of a list, in turn. -/
def setAll (f : String → JSValue) (ks : List String) (target : JSObject) : JSObject :=
  ks.foldl (fun t k => set t k (f k)) target

/-- The object the `reduce` call returns. -/
def reduced (names : List String) : JSObject := names.foldl reducer emptyObject

/-- The object literal `{ 'default': DEFAULT_TEMPLATE_DIRNAME }` once assigned
to the fresh target. -/
def defaultEntry : JSObject := ⟨[("default", .str DEFAULT_TEMPLATE_DIRNAME)], objectPrototype⟩

/-- Ascending order of the indices the keys denote. -/
def IndexSorted (l : List String) : Prop := l.Pairwise (fun a b => indexOf a ≤ indexOf b)

/-- The discovered names in the order `Object.keys` gives them on the reduced
object: array-index names first, ascending, then the others as scanned. -/
def enumerated (names : List String) : List String :=
  sortIndexKeys (names.filter isArrayIndex) ++ names.filter (fun k => !isArrayIndex k)

/-- A kept segment, as characters. -/
def CleanSegment (s : List Char) : Prop := s ≠ [] ∧ s ≠ ['.'] ∧ s ≠ ['.', '.'] ∧ '/' ∉ s

/-- The entries of `path.resolve` that come after an absolute one, joined the
way the loop joins them: each followed by `/`. -/
def relativeTail (rest : List (List Char)) : List Char :=
  rest.foldr (fun r acc => r ++ '/' :: acc) []

/-- The path `path` lies under the directory `dir`: it is `dir`, a `/`, and more. -/
def IsUnder (path dir : String) : Prop := (dir.data ++ ['/']) <+: path.data

/-- The names of the attributes written after the spread on `<MapGL>`. -/
def fixedAttributeNames : List String :=
  ["mapStyle", "onViewportChange", "mapboxApiAccessToken", "maxPitch", "touchRotate"]

/-- The first child of an element: in the tree of `Map`, the `<MapGL>` element. -/
def firstChild (tree : ReactNode) : ReactNode := tree.children.headD (.value .undefined)

/-- One round of the loop of `resolveDefaults`. -/
def defaultStep (pkgs : Packages) (defaults : JSObject) (hasChildren : Bool) (props : JSObject)
    (k : String) : JSObject :=
  if k = "children" ∧ hasChildren = true then props
  else if read pkgs props k = .undefined then set props k ((getOwn defaults k).getD .undefined)
  else props

/-- The default props of `MapGL` (none declared: no property). -/
def mapGLDefaults (pkgs : Packages) : JSObject := (pkgs.defaultProps "MapGL").getD emptyObject

/-- The props of `<MapGL>` before the default props are resolved. -/
def mapGLGiven (p : MapProps) : JSObject :=
  removeOwn (copyConfig (some (objectAssign emptyObject [p.viewport, mapGLAttributes p.dispatch])))
    "children"

/-- Sample packages: `MapGL` declares defaults for `maxZoom` and `bearing`, no
other type declares any, and no member is found through the objects known by
identity. -/
def samplePackages : Packages :=
  ⟨fun type =>
      if type = "MapGL" then some (objectLiteral [("maxZoom", .num "24"), ("bearing", .num "0")])
      else none,
    fun _ _ => .undefined⟩

/-- A sample viewport: `zoom`, its own `maxPitch`, an undefined `maxZoom`, and
the keys `children` and `key`. -/
def sampleViewport : JSObject :=
  objectLiteral
    [("zoom", .num "3"), ("maxPitch", .num "10"), ("maxZoom", .undefined),
     ("children", .str "x"), ("key", .str "k")]

/-! ## Own properties under assignment -/

theorem getOwn_eq_lookupOwn (o : JSObject) (key : String) : getOwn o key = lookupOwn o.own key := rfl

theorem lookupOwn_nil (key : String) : lookupOwn [] key = none := rfl

theorem lookupOwn_cons (p : String × JSValue) (l : List (String × JSValue)) (key : String) :
    lookupOwn (p :: l) key = if p.1 = key then some p.2 else lookupOwn l key := by
  unfold lookupOwn
  by_cases h : p.1 = key <;> simp [List.find?_cons, h]

theorem lookupOwn_append (l₁ l₂ : List (String × JSValue)) (key : String) :
    lookupOwn (l₁ ++ l₂) key = (lookupOwn l₁ key).or (lookupOwn l₂ key) := by
  induction l₁ with
  | nil => simp [lookupOwn_nil]
  | cons p l ih =>
    simp only [List.cons_append, lookupOwn_cons]
    split <;> simp [ih]

theorem lookupOwn_isSome_iff (l : List (String × JSValue)) (key : String) :
    (lookupOwn l key).isSome = true ↔ key ∈ l.map Prod.fst := by
  induction l with
  | nil => simp [lookupOwn_nil]
  | cons p l ih =>
    rw [lookupOwn_cons]
    by_cases h : p.1 = key
    · simp [h]
    · have h' : ¬ key = p.1 := fun e => h e.symm
      simp [h, h', ih]

theorem lookupOwn_eq_none_iff (l : List (String × JSValue)) (key : String) :
    lookupOwn l key = none ↔ key ∉ l.map Prod.fst := by
  rw [← lookupOwn_isSome_iff]
  cases lookupOwn l key <;> simp

theorem lookupOwn_updateOwn_self (l : List (String × JSValue)) (key : String) (v : JSValue)
    (h : key ∈ l.map Prod.fst) : lookupOwn (updateOwn key v l) key = some v := by
  induction l with
  | nil => simp at h
  | cons p l ih =>
    unfold updateOwn
    by_cases hp : p.1 = key
    · simp [hp, lookupOwn_cons]
    · have hk : key ∈ l.map Prod.fst := by
        simp only [List.map_cons, List.mem_cons] at h
        rcases h with h | h
        · exact absurd h.symm hp
        · exact h
      simp [hp, lookupOwn_cons, ih hk]

theorem lookupOwn_updateOwn_other (l : List (String × JSValue)) (key other : String)
    (v : JSValue) (h : other ≠ key) : lookupOwn (updateOwn key v l) other = lookupOwn l other := by
  induction l with
  | nil => rfl
  | cons p l ih =>
    unfold updateOwn
    by_cases hp : p.1 = key
    · have h1 : ¬ key = other := fun e => h e.symm
      simp [hp, lookupOwn_cons, h1]
    · simp [hp, lookupOwn_cons, ih]

theorem map_fst_updateOwn (l : List (String × JSValue)) (key : String) (v : JSValue) :
    (updateOwn key v l).map Prod.fst = l.map Prod.fst := by
  induction l with
  | nil => rfl
  | cons p l ih =>
    unfold updateOwn
    by_cases hp : p.1 = key
    · simp [hp]
    · simp [hp, ih]

theorem hasOwnProperty_iff (o : JSObject) (key : String) :
    hasOwnProperty o key = true ↔ key ∈ o.own.map Prod.fst := by
  unfold hasOwnProperty
  rw [getOwn_eq_lookupOwn, lookupOwn_isSome_iff]

/-- Assigning to `key` leaves every other own property as it was. -/
theorem getOwn_set_other (o : JSObject) (key other : String) (v : JSValue) (h : other ≠ key) :
    getOwn (set o key v) other = getOwn o other := by
  unfold set
  split
  · simp [getOwn_eq_lookupOwn, lookupOwn_updateOwn_other _ _ _ _ h]
  · split
    · split <;> rfl
    · have h1 : ¬ key = other := fun e => h e.symm
      simp [getOwn_eq_lookupOwn, lookupOwn_append, lookupOwn_cons, lookupOwn_nil, h1]

/-- Assigning to a key other than `__proto__` makes it an own property holding
the value assigned. -/
theorem getOwn_set_self (o : JSObject) (key : String) (v : JSValue) (h : key ≠ "__proto__") :
    getOwn (set o key v) key = some v := by
  unfold set
  split
  · next hown =>
    rw [hasOwnProperty_iff] at hown
    simp [getOwn_eq_lookupOwn, lookupOwn_updateOwn_self _ _ _ hown]
  · next hown =>
    have hnone : lookupOwn o.own key = none := by
      rw [lookupOwn_eq_none_iff, ← hasOwnProperty_iff]
      simpa using hown
    simp [h, getOwn_eq_lookupOwn, lookupOwn_append, lookupOwn_cons, lookupOwn_nil, hnone]

/-- Assigning a string never replaces the prototype. -/
theorem proto_set_str (o : JSObject) (key s : String) : (set o key (.str s)).proto = o.proto := by
  unfold set
  split
  · rfl
  · split
    · simp [JSValue.isObject]
    · rfl

/-- Assigning a string to `__proto__` on an object that inherits the accessor
changes nothing. -/
theorem set_proto_str (o : JSObject) (s : String) (hown : hasOwnProperty o "__proto__" = false)
    (hproto : o.proto ≠ .null) : set o "__proto__" (.str s) = o := by
  unfold set
  simp [hown, hproto, JSValue.isObject]


theorem setAll_nil (f : String → JSValue) (t : JSObject) : setAll f [] t = t := rfl

theorem setAll_cons (f : String → JSValue) (k : String) (ks : List String) (t : JSObject) :
    setAll f (k :: ks) t = setAll f ks (set t k (f k)) := rfl

theorem getOwn_setAll_not_mem (f : String → JSValue) (ks : List String) (t : JSObject)
    (key : String) (h : key ∉ ks) : getOwn (setAll f ks t) key = getOwn t key := by
  induction ks generalizing t with
  | nil => rfl
  | cons a ks ih =>
    simp only [List.mem_cons, not_or] at h
    rw [setAll_cons, ih _ h.2, getOwn_set_other _ _ _ _ h.1]

theorem getOwn_setAll_mem (f : String → JSValue) (ks : List String) (t : JSObject)
    (key : String) (h : key ∈ ks) (hkey : key ≠ "__proto__") :
    getOwn (setAll f ks t) key = some (f key) := by
  induction ks generalizing t with
  | nil => simp at h
  | cons a ks ih =>
    rw [setAll_cons]
    by_cases hin : key ∈ ks
    · exact ih _ hin
    · have ha : key = a := by
        simp only [List.mem_cons] at h
        rcases h with h | h
        · exact h
        · exact absurd h hin
      subst ha
      rw [getOwn_setAll_not_mem _ _ _ _ hin, getOwn_set_self _ _ _ hkey]

theorem setAll_congr (f g : String → JSValue) (ks : List String) (t : JSObject)
    (h : ∀ k ∈ ks, f k = g k) : setAll f ks t = setAll g ks t := by
  induction ks generalizing t with
  | nil => rfl
  | cons a ks ih =>
    rw [setAll_cons, setAll_cons, h a (List.mem_cons_self _ _)]
    exact ih _ (fun k hk => h k (List.mem_cons_of_mem _ hk))

theorem assignFrom_eq_setAll (target source : JSObject) :
    assignFrom target source =
      setAll (fun k => (getOwn source k).getD .undefined) (ownKeys source) target := rfl

/-! ## The order of own keys -/

theorem insertIndexKey_perm (key : String) (l : List String) :
    (insertIndexKey key l).Perm (key :: l) := by
  induction l with
  | nil => exact List.Perm.refl _
  | cons k ks ih =>
    unfold insertIndexKey
    split
    · exact List.Perm.refl _
    · exact (List.Perm.cons k ih).trans (List.Perm.swap key k ks)

theorem sortIndexKeys_perm (l : List String) : (sortIndexKeys l).Perm l := by
  induction l with
  | nil => exact List.Perm.refl _
  | cons k ks ih =>
    unfold sortIndexKeys
    exact (insertIndexKey_perm k _).trans (List.Perm.cons k ih)

theorem mem_sortIndexKeys (key : String) (l : List String) :
    key ∈ sortIndexKeys l ↔ key ∈ l := (sortIndexKeys_perm l).mem_iff

/-- The keys `ownKeys` lists are the keys of the own properties. -/
theorem mem_ownKeys (o : JSObject) (key : String) :
    key ∈ ownKeys o ↔ key ∈ o.own.map Prod.fst := by
  unfold ownKeys
  simp only [List.mem_append, mem_sortIndexKeys, List.mem_filter]
  cases isArrayIndex key <;> simp

theorem mem_ownKeys_iff_getOwn (o : JSObject) (key : String) :
    key ∈ ownKeys o ↔ (getOwn o key).isSome = true := by
  rw [mem_ownKeys, getOwn_eq_lookupOwn, lookupOwn_isSome_iff]

/-- `Object.assign` with one source, read key by key: a key of the source takes
the source's value, any other key keeps the target's. -/
theorem getOwn_assignFrom (target source : JSObject) (key : String) (hkey : key ≠ "__proto__") :
    getOwn (assignFrom target source) key = (getOwn source key).or (getOwn target key) := by
  rw [assignFrom_eq_setAll]
  by_cases h : key ∈ ownKeys source
  · rw [getOwn_setAll_mem _ _ _ _ h hkey]
    rw [mem_ownKeys_iff_getOwn] at h
    cases hs : getOwn source key with
    | none => rw [hs] at h; simp at h
    | some v => simp
  · rw [getOwn_setAll_not_mem _ _ _ _ h]
    rw [mem_ownKeys_iff_getOwn] at h
    cases hs : getOwn source key with
    | none => simp
    | some v => rw [hs] at h; simp at h

/-! ## The registry, key by key -/

theorem foldl_reducer_eq_setAll (names : List String) (o : JSObject) :
    names.foldl reducer o = setAll JSValue.str names o := rfl

theorem foldl_reducer_proto (names : List String) (o : JSObject) :
    (names.foldl reducer o).proto = o.proto := by
  induction names generalizing o with
  | nil => rfl
  | cons n ns ih =>
    rw [List.foldl_cons, ih]
    exact proto_set_str o n n

/-- The `__proto__` setter swallows the assignment of a string: the reduced
object never gets an own `__proto__`. -/
theorem foldl_reducer_no_own_proto (names : List String) (o : JSObject)
    (hown : hasOwnProperty o "__proto__" = false) (hproto : o.proto ≠ .null) :
    hasOwnProperty (names.foldl reducer o) "__proto__" = false := by
  induction names generalizing o with
  | nil => exact hown
  | cons n ns ih =>
    rw [List.foldl_cons]
    apply ih
    · by_cases hn : n = "__proto__"
      · subst hn
        unfold reducer
        rw [set_proto_str o _ hown hproto]
        exact hown
      · unfold reducer hasOwnProperty
        rw [getOwn_set_other _ _ _ _ (fun e => hn e.symm)]
        exact hown
    · unfold reducer
      rw [proto_set_str]
      exact hproto

theorem objectPrototype_ne_null : objectPrototype ≠ JSValue.null := by
  unfold objectPrototype
  exact fun h => JSValue.noConfusion h

/-- The own properties of the reduced object: one for each discovered name
other than `__proto__`, holding the name. -/
theorem getOwn_reduced (names : List String) (key : String) :
    getOwn (reduced names) key =
      if key ∈ names ∧ key ≠ "__proto__" then some (.str key) else none := by
  by_cases hkey : key = "__proto__"
  · have h := foldl_reducer_no_own_proto names emptyObject rfl objectPrototype_ne_null
    unfold hasOwnProperty at h
    subst hkey
    unfold reduced
    cases hg : getOwn (List.foldl reducer emptyObject names) "__proto__" with
    | none => simp
    | some v => rw [hg] at h; simp at h
  · by_cases hin : key ∈ names
    · unfold reduced
      rw [foldl_reducer_eq_setAll, getOwn_setAll_mem _ _ _ _ hin hkey]
      simp [hin, hkey]
    · unfold reduced
      rw [foldl_reducer_eq_setAll, getOwn_setAll_not_mem _ _ _ _ hin]
      simp [hin, getOwn_eq_lookupOwn, emptyObject, lookupOwn_nil]

theorem registry_eq (names : List String) :
    templateArgToTemplateDirname names = assignFrom defaultEntry (reduced names) := rfl

/-- The registry, own property by own property: a discovered name other than
`__proto__` holds itself; otherwise `default` holds `'base'`; nothing else is
an own property. -/
theorem getOwn_registry (names : List String) (key : String) :
    getOwn (templateArgToTemplateDirname names) key =
      if key ∈ names ∧ key ≠ "__proto__" then some (.str key)
      else if key = "default" then some (.str "base") else none := by
  rw [registry_eq]
  by_cases hkey : key = "__proto__"
  · subst hkey
    rw [assignFrom_eq_setAll, getOwn_setAll_not_mem]
    · simp [getOwn_eq_lookupOwn, defaultEntry, lookupOwn_cons, lookupOwn_nil]
    · rw [mem_ownKeys_iff_getOwn, getOwn_reduced]
      simp
  · rw [getOwn_assignFrom _ _ _ hkey, getOwn_reduced]
    by_cases hin : key ∈ names
    · simp [hin, hkey]
    · by_cases hd : key = "default"
      · subst hd
        simp [hin, getOwn_eq_lookupOwn, defaultEntry, lookupOwn_cons, DEFAULT_TEMPLATE_DIRNAME]
      · have hd' : ¬ "default" = key := fun e => hd e.symm
        simp [hin, hd, hd', getOwn_eq_lookupOwn, defaultEntry, lookupOwn_cons, lookupOwn_nil]

/-- The registry keeps `%Object.prototype%` as its prototype. -/
theorem registry_proto (names : List String) :
    (templateArgToTemplateDirname names).proto = objectPrototype := by
  rw [registry_eq, assignFrom_eq_setAll]
  have hc : setAll (fun k => (getOwn (reduced names) k).getD .undefined)
      (ownKeys (reduced names)) defaultEntry
      = setAll JSValue.str (ownKeys (reduced names)) defaultEntry := by
    apply setAll_congr
    intro k hk
    rw [mem_ownKeys_iff_getOwn, getOwn_reduced] at hk
    rw [getOwn_reduced]
    by_cases hc : k ∈ names ∧ k ≠ "__proto__"
    · simp [hc]
    · simp [hc] at hk
  rw [hc, ← foldl_reducer_eq_setAll, foldl_reducer_proto]
  rfl

/-- The keys of the registry, as a set. -/
theorem mem_keys_registry (names : List String) (key : String) :
    key ∈ keys (templateArgToTemplateDirname names) ↔
      (key ∈ names ∧ key ≠ "__proto__") ∨ key = "default" := by
  unfold keys
  rw [mem_ownKeys_iff_getOwn, getOwn_registry]
  by_cases h1 : key ∈ names ∧ key ≠ "__proto__"
  · simp [h1]
  · by_cases h2 : key = "default"
    · rw [if_neg h1, if_pos h2]
      simp [h2]
    · simp [h1, h2]

/-! ## The registry, in enumeration order -/

theorem map_fst_set (o : JSObject) (key : String) (v : JSValue)
    (hnew : key ∉ o.own.map Prod.fst) (hkey : key ≠ "__proto__") :
    (set o key v).own.map Prod.fst = o.own.map Prod.fst ++ [key] := by
  have hown : hasOwnProperty o key = false := by
    rw [← Bool.not_eq_true, hasOwnProperty_iff]
    exact hnew
  unfold set
  simp [hown, hkey]

theorem map_fst_setAll (f : String → JSValue) (ks : List String) (t : JSObject)
    (hnodup : ks.Nodup) (hnew : ∀ k ∈ ks, k ∉ t.own.map Prod.fst) (hkey : "__proto__" ∉ ks) :
    (setAll f ks t).own.map Prod.fst = t.own.map Prod.fst ++ ks := by
  induction ks generalizing t with
  | nil => simp [setAll_nil]
  | cons a ks ih =>
    rw [List.nodup_cons] at hnodup
    have ha : a ≠ "__proto__" := fun e => hkey (e ▸ List.mem_cons_self _ _)
    have hset := map_fst_set t a (f a) (hnew a (List.mem_cons_self _ _)) ha
    rw [setAll_cons, ih _ hnodup.2, hset]
    · simp
    · intro k hk
      rw [hset]
      simp only [List.mem_append, List.mem_singleton, not_or]
      refine ⟨hnew k (List.mem_cons_of_mem _ hk), ?_⟩
      intro e
      exact hnodup.1 (e ▸ hk)
    · exact fun h => hkey (List.mem_cons_of_mem _ h)

theorem insertIndexKey_sorted (key : String) (l : List String) (h : IndexSorted l) :
    IndexSorted (insertIndexKey key l) := by
  induction l with
  | nil => simp [insertIndexKey, IndexSorted]
  | cons k ks ih =>
    unfold IndexSorted at h ih ⊢
    rw [List.pairwise_cons] at h
    unfold insertIndexKey
    split
    · next hle =>
      rw [List.pairwise_cons]
      refine ⟨?_, List.pairwise_cons.mpr h⟩
      intro x hx
      simp only [List.mem_cons] at hx
      rcases hx with hx | hx
      · subst hx; exact hle
      · exact Nat.le_trans hle (h.1 x hx)
    · next hlt =>
      rw [List.pairwise_cons]
      refine ⟨?_, ih h.2⟩
      intro x hx
      rw [(insertIndexKey_perm key ks).mem_iff] at hx
      simp only [List.mem_cons] at hx
      rcases hx with hx | hx
      · subst hx; omega
      · exact h.1 x hx

theorem sortIndexKeys_sorted (l : List String) : IndexSorted (sortIndexKeys l) := by
  induction l with
  | nil => simp [sortIndexKeys, IndexSorted]
  | cons k ks ih => exact insertIndexKey_sorted k _ ih

theorem sortIndexKeys_of_sorted (l : List String) (h : IndexSorted l) : sortIndexKeys l = l := by
  induction l with
  | nil => rfl
  | cons k ks ih =>
    unfold IndexSorted at h ih
    rw [List.pairwise_cons] at h
    unfold sortIndexKeys
    rw [ih h.2]
    cases ks with
    | nil => rfl
    | cons k2 ks2 =>
      unfold insertIndexKey
      simp [h.1 k2 (List.mem_cons_self _ _)]

theorem ownKeys_of_keys (o : JSObject) (ks : List String) (h : o.own.map Prod.fst = ks) :
    ownKeys o = sortIndexKeys (ks.filter isArrayIndex) ++ ks.filter (fun k => !isArrayIndex k) := by
  unfold ownKeys
  simp [h]

theorem filter_index_sorted_append (names : List String) :
    (sortIndexKeys (names.filter isArrayIndex) ++ names.filter (fun k => !isArrayIndex k)).filter
        isArrayIndex = sortIndexKeys (names.filter isArrayIndex) := by
  rw [List.filter_append]
  have h1 : (sortIndexKeys (names.filter isArrayIndex)).filter isArrayIndex
      = sortIndexKeys (names.filter isArrayIndex) := by
    rw [List.filter_eq_self]
    intro a ha
    rw [mem_sortIndexKeys, List.mem_filter] at ha
    exact ha.2
  have h2 : (names.filter (fun k => !isArrayIndex k)).filter isArrayIndex = [] := by
    rw [List.filter_eq_nil_iff]
    intro a ha
    rw [List.mem_filter] at ha
    simpa using ha.2
  rw [h1, h2, List.append_nil]

theorem filter_not_index_sorted_append (names : List String) :
    (sortIndexKeys (names.filter isArrayIndex) ++ names.filter (fun k => !isArrayIndex k)).filter
        (fun k => !isArrayIndex k) = names.filter (fun k => !isArrayIndex k) := by
  rw [List.filter_append]
  have h1 : (sortIndexKeys (names.filter isArrayIndex)).filter (fun k => !isArrayIndex k) = [] := by
    rw [List.filter_eq_nil_iff]
    intro a ha
    rw [mem_sortIndexKeys, List.mem_filter] at ha
    simp [ha.2]
  have h2 : (names.filter (fun k => !isArrayIndex k)).filter (fun k => !isArrayIndex k)
      = names.filter (fun k => !isArrayIndex k) := by
    rw [List.filter_eq_self]
    intro a ha
    rw [List.mem_filter] at ha
    exact ha.2
  rw [h1, h2, List.nil_append]

theorem enumerated_perm (names : List String) : (enumerated names).Perm names := by
  unfold enumerated
  refine (List.Perm.append_right _ (sortIndexKeys_perm _)).trans ?_
  exact List.filter_append_perm isArrayIndex names

theorem map_fst_reduced (names : List String) (hnodup : names.Nodup)
    (hkey : "__proto__" ∉ names) : (reduced names).own.map Prod.fst = names := by
  unfold reduced
  rw [foldl_reducer_eq_setAll, map_fst_setAll _ _ _ hnodup _ hkey]
  · rfl
  · intro k _
    simp [emptyObject]

theorem ownKeys_reduced (names : List String) (hnodup : names.Nodup)
    (hkey : "__proto__" ∉ names) : ownKeys (reduced names) = enumerated names :=
  ownKeys_of_keys _ _ (map_fst_reduced names hnodup hkey)

theorem map_fst_registry (names : List String) (hnodup : names.Nodup)
    (hdefault : "default" ∉ names) (hkey : "__proto__" ∉ names) :
    (templateArgToTemplateDirname names).own.map Prod.fst = "default" :: enumerated names := by
  rw [registry_eq, assignFrom_eq_setAll, ownKeys_reduced names hnodup hkey]
  rw [map_fst_setAll]
  · rfl
  · exact (enumerated_perm names).nodup_iff.mpr hnodup
  · intro k hk
    rw [(enumerated_perm names).mem_iff] at hk
    simp only [defaultEntry, List.map_cons, List.map_nil, List.mem_singleton]
    intro e
    exact hdefault (e ▸ hk)
  · rw [(enumerated_perm names).mem_iff]
    exact hkey

theorem keys_registry (names : List String) (hnodup : names.Nodup)
    (hdefault : "default" ∉ names) (hkey : "__proto__" ∉ names) :
    keys (templateArgToTemplateDirname names) =
      sortIndexKeys (names.filter isArrayIndex) ++
        "default" :: names.filter (fun k => !isArrayIndex k) := by
  unfold keys
  rw [ownKeys_of_keys _ _ (map_fst_registry names hnodup hdefault hkey)]
  have hd : isArrayIndex "default" = false := by decide
  rw [List.filter_cons, List.filter_cons]
  simp only [hd, Bool.false_eq_true, if_false, Bool.not_false, if_true]
  unfold enumerated
  rw [filter_index_sorted_append, filter_not_index_sorted_append,
    sortIndexKeys_of_sorted _ (sortIndexKeys_sorted _)]

/-! ## Resolving against an absolute normalised path -/

theorem cleanSegment_of_isSegment (s : String) (h : IsSegment s) : CleanSegment s.data := h

theorem splitOnSlash_ne_nil (l : List Char) : splitOnSlash l ≠ [] := by
  induction l with
  | nil => simp [splitOnSlash]
  | cons c cs ih =>
    unfold splitOnSlash
    split
    · simp
    · split <;> simp

theorem splitOnSlash_slash (l : List Char) : splitOnSlash ('/' :: l) = [] :: splitOnSlash l := by
  rw [splitOnSlash]
  simp

theorem splitOnSlash_append_slash (seg tail : List Char) (h : '/' ∉ seg) :
    splitOnSlash (seg ++ '/' :: tail) = seg :: splitOnSlash tail := by
  induction seg with
  | nil => exact splitOnSlash_slash tail
  | cons c cs ih =>
    simp only [List.mem_cons, not_or] at h
    have hc : ¬ c = '/' := fun e => h.1 e.symm
    rw [List.cons_append, splitOnSlash, if_neg hc, ih h.2]

theorem splitOnSlash_join_slash (segs : List (List Char)) (tail : List Char)
    (hne : segs ≠ []) (h : ∀ s ∈ segs, '/' ∉ s) :
    splitOnSlash (joinWithSlash segs ++ '/' :: tail) = segs ++ splitOnSlash tail := by
  induction segs with
  | nil => exact absurd rfl hne
  | cons s ss ih =>
    cases ss with
    | nil =>
      simp only [joinWithSlash, List.singleton_append]
      exact splitOnSlash_append_slash s tail (h s (List.mem_cons_self _ _))
    | cons s2 ss2 =>
      have hs := h s (List.mem_cons_self _ _)
      have ih2 := ih (List.cons_ne_nil _ _) (fun x hx => h x (List.mem_cons_of_mem _ hx))
      show splitOnSlash ((s ++ '/' :: joinWithSlash (s2 :: ss2)) ++ '/' :: tail) = _
      rw [List.append_assoc, List.cons_append, splitOnSlash_append_slash s _ hs, ih2]
      rfl

theorem normalizeStep_clean (allowAboveRoot : Bool) (kept : List (List Char)) (seg : List Char)
    (h : CleanSegment seg) : normalizeStep allowAboveRoot kept seg = seg :: kept := by
  unfold normalizeStep
  simp [h.1, h.2.1, h.2.2.1]

theorem normalizeStep_empty (allowAboveRoot : Bool) (kept : List (List Char)) :
    normalizeStep allowAboveRoot kept [] = kept := by
  simp [normalizeStep]

theorem normalizeStep_dot (allowAboveRoot : Bool) (kept : List (List Char)) :
    normalizeStep allowAboveRoot kept ['.'] = kept := by
  simp [normalizeStep]

theorem normalizeStep_dotdot (allowAboveRoot : Bool) (top : List Char) (below : List (List Char))
    (h : CleanSegment top) : normalizeStep allowAboveRoot (top :: below) ['.', '.'] = below := by
  unfold normalizeStep
  simp [h.2.2.1]

theorem foldl_normalizeStep_clean (allowAboveRoot : Bool) (segs kept : List (List Char))
    (h : ∀ s ∈ segs, CleanSegment s) :
    segs.foldl (normalizeStep allowAboveRoot) kept = segs.reverse ++ kept := by
  induction segs generalizing kept with
  | nil => rfl
  | cons s ss ih =>
    rw [List.foldl_cons, normalizeStep_clean _ _ _ (h s (List.mem_cons_self _ _)),
      ih _ (fun x hx => h x (List.mem_cons_of_mem _ hx))]
    simp

/-- Normalising `/a/b/` followed by more: the segments of the absolute
normalised path are kept, and normalisation goes on from them. -/
theorem foldl_normalizeStep_absolute (segs : List (List Char)) (tail : List Char)
    (h : ∀ s ∈ segs, CleanSegment s) :
    (splitOnSlash ('/' :: joinWithSlash segs ++ '/' :: tail)).foldl (normalizeStep false) [] =
      (splitOnSlash tail).foldl (normalizeStep false) segs.reverse := by
  rw [List.cons_append, splitOnSlash_slash, List.foldl_cons, normalizeStep_empty]
  by_cases hne : segs = []
  · subst hne
    simp only [joinWithSlash, List.nil_append, List.reverse_nil]
    rw [splitOnSlash_slash, List.foldl_cons, normalizeStep_empty]
  · rw [splitOnSlash_join_slash segs tail hne (fun s hs => (h s hs).2.2.2), List.foldl_append,
      foldl_normalizeStep_clean _ _ _ h, List.append_nil]

theorem resolveLoop_relative (revs : List (List Char)) (resolved : List Char)
    (more : List (List Char)) (h : ∀ r ∈ revs, r ≠ [] ∧ r.head? ≠ some '/') :
    resolveLoop resolved (revs ++ more) =
      resolveLoop (revs.foldl (fun acc r => r ++ '/' :: acc) resolved) more := by
  induction revs generalizing resolved with
  | nil => rfl
  | cons r rs ih =>
    have hr := h r (List.mem_cons_self _ _)
    rw [List.cons_append, resolveLoop, if_neg hr.1, if_neg hr.2, List.foldl_cons]
    exact ih _ (fun x hx => h x (List.mem_cons_of_mem _ hx))

theorem foldl_relative_eq (rest : List (List Char)) :
    rest.reverse.foldl (fun acc r => r ++ '/' :: acc) [] = relativeTail rest := by
  unfold relativeTail
  rw [List.foldl_reverse]

/-- `path.resolve` of an absolute normalised path followed by relative entries:
the working directory is not consulted, and the result is the normalisation of
the entries taken from the segments of the absolute path. -/
theorem resolvePath_absolute (cwd : String) (segments : List String) (rest : List String)
    (hsegs : ∀ s ∈ segments, IsSegment s)
    (hrest : ∀ r ∈ rest, r.data ≠ [] ∧ r.data.head? ≠ some '/') :
    resolvePath cwd (absolutePath segments :: rest) =
      ⟨'/' :: joinWithSlash
        (((splitOnSlash (relativeTail (rest.map String.data))).foldl (normalizeStep false)
          (segments.map String.data).reverse).reverse)⟩ := by
  have hloop : resolveLoop [] ((absolutePath segments :: rest).reverse.map String.data ++ [cwd.data])
      = ('/' :: joinWithSlash (segments.map String.data) ++
          '/' :: relativeTail (rest.map String.data), true) := by
    rw [List.reverse_cons, List.map_append, List.append_assoc, resolveLoop_relative]
    · rw [List.map_reverse, foldl_relative_eq]
      simp [resolveLoop, absolutePath]
    · intro r hr
      rw [List.mem_map] at hr
      obtain ⟨x, hx, rfl⟩ := hr
      exact hrest x (List.mem_reverse.mp hx)
  unfold resolvePath
  simp only [hloop, Bool.not_true, if_true]
  unfold normalizeString
  rw [foldl_normalizeStep_absolute]
  intro s hs
  rw [List.mem_map] at hs
  obtain ⟨x, hx, rfl⟩ := hs
  exact hsegs x hx

/-- Resolving clean segments against an absolute normalised path appends them. -/
theorem resolvePath_append (cwd : String) (segments more : List String)
    (hsegs : ∀ s ∈ segments, IsSegment s) (hmore : ∀ s ∈ more, IsSegment s) :
    resolvePath cwd (absolutePath segments :: more) = absolutePath (segments ++ more) := by
  have hrel : ∀ r ∈ more, r.data ≠ [] ∧ r.data.head? ≠ some '/' := by
    intro r hr
    have h := hmore r hr
    refine ⟨h.1, ?_⟩
    intro e
    apply h.2.2.2
    cases hd : r.data with
    | nil => rw [hd] at e; simp at e
    | cons c cs => rw [hd] at e; simp at e; simp [e]
  rw [resolvePath_absolute cwd segments more hsegs hrel]
  have hsplit : ∀ (l : List String), (∀ s ∈ l, IsSegment s) →
      splitOnSlash (relativeTail (l.map String.data)) = l.map String.data ++ [[]] := by
    intro l hl
    induction l with
    | nil => rfl
    | cons a as ih =>
      simp only [List.map_cons, relativeTail, List.foldr_cons]
      rw [splitOnSlash_append_slash _ _ (hl a (List.mem_cons_self _ _)).2.2.2]
      have := ih (fun s hs => hl s (List.mem_cons_of_mem _ hs))
      unfold relativeTail at this
      rw [this]
      rfl
  have hclean : ∀ s ∈ more.map String.data, CleanSegment s := by
    intro s hs
    rw [List.mem_map] at hs
    obtain ⟨x, hx, rfl⟩ := hs
    exact hmore x hx
  rw [hsplit more hmore, List.foldl_append, foldl_normalizeStep_clean _ _ _ hclean]
  simp [absolutePath, normalizeStep_empty]

/-- Resolving `./../../..` against an absolute normalised path drops its last
three segments. -/
theorem resolvePath_up_three (cwd : String) (segments : List String) (a b c : String)
    (hsegs : ∀ s ∈ segments, IsSegment s) (ha : IsSegment a) (hb : IsSegment b)
    (hc : IsSegment c) :
    resolvePath cwd [absolutePath (segments ++ [a, b, c]), "./../../.."] =
      absolutePath segments := by
  rw [resolvePath_absolute]
  · have hsplit : splitOnSlash (relativeTail (["./../../.."].map String.data))
        = [['.'], ['.', '.'], ['.', '.'], ['.', '.'], []] := by decide
    rw [hsplit]
    simp only [List.map_append, List.map_cons, List.map_nil, List.reverse_append,
      List.reverse_cons, List.reverse_nil, List.nil_append, List.cons_append, List.foldl_cons,
      List.foldl_nil, normalizeStep_dot, normalizeStep_empty]
    rw [normalizeStep_dotdot _ _ _ hc, normalizeStep_dotdot _ _ _ hb,
      normalizeStep_dotdot _ _ _ ha]
    simp [absolutePath]
  · intro s hs
    simp only [List.mem_append, List.mem_cons, List.mem_singleton, List.not_mem_nil,
      or_false] at hs
    rcases hs with hs | rfl | rfl | rfl
    · exact hsegs s hs
    · exact ha
    · exact hb
    · exact hc
  · intro r hr
    simp only [List.mem_singleton] at hr
    subst hr
    decide

/-- Resolving `..` against an absolute normalised path drops its last segment. -/
theorem resolvePath_parent (cwd : String) (segments : List String) (a : String)
    (hsegs : ∀ s ∈ segments, IsSegment s) (ha : IsSegment a) :
    resolvePath cwd [absolutePath (segments ++ [a]), ".."] = absolutePath segments := by
  rw [resolvePath_absolute]
  · have hsplit : splitOnSlash (relativeTail ([".."].map String.data))
        = [['.', '.'], []] := by decide
    rw [hsplit]
    simp only [List.map_append, List.map_cons, List.map_nil, List.reverse_append,
      List.reverse_cons, List.reverse_nil, List.nil_append, List.cons_append, List.foldl_cons,
      List.foldl_nil, normalizeStep_empty]
    rw [normalizeStep_dotdot _ _ _ ha]
    simp [absolutePath]
  · intro s hs
    simp only [List.mem_append, List.mem_singleton] at hs
    rcases hs with hs | rfl
    · exact hsegs s hs
    · exact ha
  · intro r hr
    simp only [List.mem_singleton] at hr
    subst hr
    decide

/-! ## The constants of `constants.js` -/

theorem joinWithSlash_append (a b : List (List Char)) (ha : a ≠ []) (hb : b ≠ []) :
    joinWithSlash (a ++ b) = joinWithSlash a ++ '/' :: joinWithSlash b := by
  induction a with
  | nil => exact absurd rfl ha
  | cons s ss ih =>
    cases ss with
    | nil =>
      cases b with
      | nil => exact absurd rfl hb
      | cons t ts => rfl
    | cons s2 ss2 =>
      have ih2 := ih (List.cons_ne_nil _ _)
      show s ++ '/' :: joinWithSlash ((s2 :: ss2) ++ b) = _
      rw [ih2]
      show _ = (s ++ '/' :: joinWithSlash (s2 :: ss2)) ++ '/' :: joinWithSlash b
      simp

theorem absolutePath_isUnder (segments : List String) (name : String) (h : segments ≠ []) :
    IsUnder (absolutePath (segments ++ [name])) (absolutePath segments) := by
  unfold IsUnder absolutePath
  simp only [List.map_append, List.map_cons, List.map_nil]
  rw [joinWithSlash_append _ _ (by simpa using h) (List.cons_ne_nil _ _)]
  exact ⟨name.data, by simp [joinWithSlash]⟩

theorem examples_not_under_package (root : List String) :
    ¬ IsUnder (absolutePath (root ++ ["examples"]))
      (absolutePath (root ++ ["packages", "create-cave-app"])) := by
  unfold IsUnder absolutePath
  by_cases hroot : root = []
  · subst hroot
    decide
  · have hr : root.map String.data ≠ [] := by simpa using hroot
    simp only [List.map_append, List.map_cons, List.map_nil]
    rw [joinWithSlash_append _ _ hr (List.cons_ne_nil _ _),
      joinWithSlash_append _ _ hr (List.cons_ne_nil _ _)]
    simp only [List.cons_append, List.append_assoc]
    rw [List.cons_prefix_cons, List.prefix_append_right_inj]
    decide

/-! ## The props of `<MapGL>` -/

theorem lookupOwn_filter_ne (l : List (String × JSValue)) (dropped key : String) :
    lookupOwn (l.filter (fun p => !(p.1 == dropped))) key =
      if key = dropped then none else lookupOwn l key := by
  induction l with
  | nil => simp [lookupOwn_nil]
  | cons p l ih =>
    rw [List.filter_cons]
    by_cases hp : p.1 = dropped
    · have hb : (!(p.1 == dropped)) = false := by simp [hp]
      rw [hb, if_neg (by simp), ih, lookupOwn_cons]
      by_cases hk : key = dropped
      · rw [if_pos hk, if_pos hk]
      · have hpk : ¬ p.1 = key := fun e => hk (e.symm.trans hp)
        rw [if_neg hk, if_neg hk, if_neg hpk]
    · have hb : (!(p.1 == dropped)) = true := by simp [hp]
      rw [hb, if_pos rfl, lookupOwn_cons, ih, lookupOwn_cons]
      by_cases hk : key = dropped
      · have hpk : ¬ p.1 = key := fun e => hp (e.trans hk)
        simp only [if_pos hk, if_neg hpk]
      · simp only [if_neg hk]

theorem removeOwn_emptyObject (key : String) : removeOwn emptyObject key = emptyObject := rfl

theorem getOwn_removeOwn (o : JSObject) (dropped key : String) :
    getOwn (removeOwn o dropped) key = if key = dropped then none else getOwn o key :=
  lookupOwn_filter_ne o.own dropped key

theorem foldl_skip_eq_setAll (f : String → JSValue) (skip : List String) (ks : List String)
    (t : JSObject) :
    ks.foldl (fun props k => if k ∈ skip then props else set props k (f k)) t =
      setAll f (ks.filter (fun k => decide (k ∉ skip))) t := by
  induction ks generalizing t with
  | nil => rfl
  | cons a ks ih =>
    rw [List.foldl_cons, List.filter_cons]
    by_cases ha : a ∈ skip
    · simp only [ha, if_true, not_true_eq_false, decide_False, Bool.false_eq_true, if_false]
      exact ih t
    · simp only [ha, if_false, not_false_eq_true, decide_True, if_true, setAll_cons]
      exact ih _

/-- The props `createElement` copies out of `config`, one by one: a reserved
name is never a prop, any other own property of `config` is. -/
theorem getOwn_copyConfig (c : JSObject) (key : String) (hkey : key ≠ "__proto__") :
    getOwn (copyConfig (some c)) key =
      if key ∈ RESERVED_PROPS then none else getOwn c key := by
  unfold copyConfig
  simp only []
  rw [foldl_skip_eq_setAll (fun k => (getOwn c k).getD .undefined)]
  by_cases hr : key ∈ RESERVED_PROPS
  · rw [getOwn_setAll_not_mem, if_pos hr]
    · rfl
    · simp [List.mem_filter, hr]
  · rw [if_neg hr]
    by_cases hin : key ∈ ownKeys c
    · rw [getOwn_setAll_mem _ _ _ _ (by simp [List.mem_filter, hin, hr]) hkey]
      rw [mem_ownKeys_iff_getOwn] at hin
      cases hg : getOwn c key with
      | none => rw [hg] at hin; simp at hin
      | some v => rfl
    · rw [getOwn_setAll_not_mem _ _ _ _ (by simp [List.mem_filter, hin])]
      rw [mem_ownKeys_iff_getOwn] at hin
      cases hg : getOwn c key with
      | none => rfl
      | some v => rw [hg] at hin; simp at hin

theorem mapGLAttributes_eq (dispatch : JSValue) :
    mapGLAttributes dispatch =
      ⟨[ ("mapStyle", .str "mapbox://styles/mapbox/dark-v9"),
         ("onViewportChange", .viewportChangeHandler dispatch),
         ("mapboxApiAccessToken", .str MAPBOX_TOKEN),
         ("maxPitch", .num "59.9"),
         ("touchRotate", .bool true) ], objectPrototype⟩ := by
  simp [mapGLAttributes, objectLiteral, hasOwnProperty, getOwn, emptyObject]

/-- The config object of `<MapGL>`: the attributes written after the spread
win, any other key comes from the viewport. -/
theorem getOwn_mapGL_config (viewport : JSObject) (dispatch : JSValue) (key : String)
    (hkey : key ≠ "__proto__") :
    getOwn (objectAssign emptyObject [viewport, mapGLAttributes dispatch]) key =
      (getOwn (mapGLAttributes dispatch) key).or (getOwn viewport key) := by
  unfold objectAssign
  simp only [List.foldl_cons, List.foldl_nil]
  rw [getOwn_assignFrom _ _ _ hkey, getOwn_assignFrom _ _ _ hkey]
  have : getOwn emptyObject key = none := rfl
  rw [this]
  cases getOwn viewport key <;> cases getOwn (mapGLAttributes dispatch) key <;> rfl

/-- The props of `<MapGL>` before the defaults, one by one. -/
theorem getOwn_mapGLGiven (p : MapProps) (key : String) (hkey : key ≠ "__proto__") :
    getOwn (mapGLGiven p) key =
      if key = "children" ∨ key ∈ RESERVED_PROPS then none
      else (getOwn (mapGLAttributes p.dispatch) key).or (getOwn p.viewport key) := by
  unfold mapGLGiven
  rw [getOwn_removeOwn, getOwn_copyConfig _ _ hkey, getOwn_mapGL_config _ _ _ hkey]
  by_cases h1 : key = "children"
  · simp [h1]
  · by_cases h2 : key ∈ RESERVED_PROPS
    · simp [h1, h2]
    · simp [h1, h2]

/-! ## Resolving the default props -/

theorem read_of_getOwn (pkgs : Packages) (o : JSObject) (key : String) (v : JSValue)
    (h : getOwn o key = some v) : read pkgs o key = v := by
  unfold read get
  rw [h]

theorem resolveDefaults_eq (pkgs : Packages) (defaults : JSObject) (hasChildren : Bool)
    (props : JSObject) :
    resolveDefaults pkgs defaults hasChildren props =
      (ownKeys defaults).foldl (defaultStep pkgs defaults hasChildren) props := rfl

theorem getOwn_defaultStep_other (pkgs : Packages) (defaults : JSObject) (hasChildren : Bool)
    (props : JSObject) (k key : String) (h : key ≠ k) :
    getOwn (defaultStep pkgs defaults hasChildren props k) key = getOwn props key := by
  unfold defaultStep
  split
  · rfl
  · split
    · exact getOwn_set_other _ _ _ _ h
    · rfl

/-- A prop that is present keeps its value through the defaults, unless the
value is `undefined` and a default is declared, which then replaces it. -/
theorem getOwn_foldl_defaultStep_some (pkgs : Packages) (defaults : JSObject)
    (hasChildren : Bool) (key : String) (hkey : key ≠ "__proto__")
    (hskip : ¬ (key = "children" ∧ hasChildren = true)) (ks : List String) (props : JSObject)
    (u : JSValue) (h : getOwn props key = some u) :
    getOwn (ks.foldl (defaultStep pkgs defaults hasChildren) props) key =
      some (if u = .undefined ∧ key ∈ ks then (getOwn defaults key).getD .undefined else u) := by
  induction ks generalizing props u with
  | nil => simp [h]
  | cons a ks ih =>
    rw [List.foldl_cons]
    by_cases ha : a = key
    · subst ha
      have hread : read pkgs props a = u := read_of_getOwn pkgs props a u h
      by_cases hu : u = .undefined
      · have hstep : defaultStep pkgs defaults hasChildren props a =
            set props a ((getOwn defaults a).getD .undefined) := by
          unfold defaultStep
          rw [if_neg hskip, hread, if_pos hu]
        rw [hstep, ih _ _ (getOwn_set_self _ _ _ hkey)]
        simp [hu]
      · have hstep : defaultStep pkgs defaults hasChildren props a = props := by
          unfold defaultStep
          rw [if_neg hskip, hread, if_neg hu]
        rw [hstep, ih _ _ h]
        simp [hu]
    · have hne : key ≠ a := fun e => ha e.symm
      rw [ih _ u (by rw [getOwn_defaultStep_other _ _ _ _ _ _ hne]; exact h)]
      simp [hne]

/-- With children given, the defaults leave the own property `children` alone. -/
theorem getOwn_foldl_defaultStep_children (pkgs : Packages) (defaults : JSObject)
    (ks : List String) (props : JSObject) :
    getOwn (ks.foldl (defaultStep pkgs defaults true) props) "children" =
      getOwn props "children" := by
  induction ks generalizing props with
  | nil => rfl
  | cons a ks ih =>
    rw [List.foldl_cons, ih]
    by_cases ha : a = "children"
    · subst ha
      simp [defaultStep]
    · exact getOwn_defaultStep_other _ _ _ _ _ _ (fun e => ha e.symm)

/-- A prop that is absent stays absent or becomes the declared default. -/
theorem getOwn_foldl_defaultStep_none (pkgs : Packages) (defaults : JSObject)
    (key : String) (hkey : key ≠ "__proto__") (hchildren : key ≠ "children")
    (ks : List String) (props : JSObject) (h : getOwn props key = none) :
    getOwn (ks.foldl (defaultStep pkgs defaults true) props) key = none ∨
      getOwn (ks.foldl (defaultStep pkgs defaults true) props) key =
        some ((getOwn defaults key).getD .undefined) := by
  induction ks generalizing props with
  | nil => exact Or.inl h
  | cons a ks ih =>
    rw [List.foldl_cons]
    by_cases ha : a = key
    · subst ha
      cases hstep : getOwn (defaultStep pkgs defaults true props a) a with
      | none => exact ih _ hstep
      | some d =>
        have hd : d = (getOwn defaults a).getD .undefined := by
          unfold defaultStep at hstep
          rw [if_neg (fun hc => hchildren hc.1)] at hstep
          split at hstep
          · rw [getOwn_set_self _ _ _ hkey] at hstep
            exact (Option.some.inj hstep).symm
          · rw [h] at hstep
            exact absurd hstep (by simp)
        right
        rw [getOwn_foldl_defaultStep_some pkgs defaults true a hkey
          (fun hc => hchildren hc.1) ks _ d hstep]
        simp [hd]
    · apply ih
      rw [getOwn_defaultStep_other _ _ _ _ _ _ (fun e => ha e.symm)]
      exact h

/-! ## The tree of `Map` -/

theorem createElement_leaf (pkgs : Packages) (type : String) :
    createElement pkgs type none [] =
      .element type
        (resolveDefaults pkgs ((pkgs.defaultProps type).getD emptyObject) false emptyObject) [] := by
  simp [createElement, copyConfig, defaultChildren]

/-- The `<MapGL>` element of the tree. -/
theorem firstChild_Map (pkgs : Packages) (p : MapProps) :
    firstChild (Map pkgs p) =
      .element "MapGL" (resolveDefaults pkgs (mapGLDefaults pkgs) true (mapGLGiven p))
        [createElement pkgs "DeckGLOverlay" none [], createElement pkgs "GroundRadial" none []] := by
  simp [Map, createElement, firstChild, ReactNode.children, defaultChildren, mapGLDefaults,
    mapGLGiven]

theorem types_Map (pkgs : Packages) (p : MapProps) :
    (Map pkgs p).types =
      ["Div", "MapGL", "DeckGLOverlay", "GroundRadial"] ++
        (if p.isConnected then ["ControlOverlay"] else []) := by
  cases h : p.isConnected <;>
    simp [Map, createElement, defaultChildren, ReactNode.types, ReactNode.types.typesOfAll, h]

/-- The props of the `<MapGL>` element. -/
theorem props_firstChild_Map (pkgs : Packages) (p : MapProps) :
    (firstChild (Map pkgs p)).props =
      (ownKeys (mapGLDefaults pkgs)).foldl (defaultStep pkgs (mapGLDefaults pkgs) true)
        (mapGLGiven p) := by
  rw [firstChild_Map]
  rfl

/-- An attribute written after the spread, or a viewport key that reaches the
props: its value `u` stays, unless it is `undefined` and replaced by the default. -/
theorem getOwn_mapGL_props (pkgs : Packages) (p : MapProps) (key : String) (u : JSValue)
    (hkey : key ≠ "__proto__") (hchildren : key ≠ "children")
    (h : getOwn (mapGLGiven p) key = some u) :
    getOwn (firstChild (Map pkgs p)).props key =
      some (if u = .undefined then (getOwn (mapGLDefaults pkgs) key).getD .undefined else u) := by
  rw [props_firstChild_Map,
    getOwn_foldl_defaultStep_some pkgs _ true key hkey (fun hc => hchildren hc.1) _ _ u h]
  by_cases hu : u = .undefined
  · by_cases hin : key ∈ ownKeys (mapGLDefaults pkgs)
    · simp [hu, hin]
    · have hnone : getOwn (mapGLDefaults pkgs) key = none := by
        rw [mem_ownKeys_iff_getOwn] at hin
        cases hg : getOwn (mapGLDefaults pkgs) key with
        | none => rfl
        | some d => rw [hg] at hin; simp at hin
      simp [hu, hin, hnone]
  · simp [hu]

/-! ## Property reads on the registry -/

theorem get_of_getOwn (o : JSObject) (key : String) (v : JSValue) (h : getOwn o key = some v) :
    get o key = some v := by
  unfold get
  rw [h]

theorem get_registry_of_not_own (names : List String) (key : String)
    (h : getOwn (templateArgToTemplateDirname names) key = none) :
    get (templateArgToTemplateDirname names) key =
      some (objectPrototypeGet (templateArgToTemplateDirname names) key) := by
  unfold get
  rw [h]
  simp [registry_proto]

theorem objectPrototypeGet_member (o : JSObject) (key : String) (hproto : o.proto = objectPrototype)
    (h : key ∈ objectPrototypeMembers) : ∃ name, objectPrototypeGet o key = .intrinsic name := by
  unfold objectPrototypeGet
  by_cases h1 : key = "__proto__"
  · exact ⟨"%Object.prototype%", by rw [if_pos h1, hproto]; rfl⟩
  · by_cases h2 : key = "constructor"
    · exact ⟨"%Object%", by rw [if_neg h1, if_pos h2]⟩
    · exact ⟨"%Object.prototype." ++ key ++ "%", by rw [if_neg h1, if_neg h2, if_pos h]⟩

theorem objectPrototypeGet_not_member (o : JSObject) (key : String)
    (h : key ∉ objectPrototypeMembers) : objectPrototypeGet o key = .undefined := by
  have h1 : key ≠ "__proto__" := fun e => h (e ▸ by decide)
  have h2 : key ≠ "constructor" := fun e => h (e ▸ by decide)
  unfold objectPrototypeGet
  rw [if_neg h1, if_neg h2, if_neg h]

theorem isAbsolute_str_eq_false (n : String) (h : '/' ∉ n.data) :
    isAbsolute (.str n) = false := by
  unfold isAbsolute
  rw [decide_eq_false_iff_not]
  intro e
  apply h
  cases hd : n.data with
  | nil => rw [hd] at e; simp at e
  | cons c cs => rw [hd] at e; simp at e; simp [e]

/-! ## The claims -/

/-- C1, at the failing input. The claim is that the keys of the registry are
`default` and every discovered name. A directory called `__proto__` gets no
key: the assignment `a[name] = name` runs the `__proto__` setter of
`%Object.prototype%`, which ignores a string. -/
theorem C1_proto_directory_has_no_key :
    keys (templateArgToTemplateDirname ["__proto__"]) = ["default"] ∧
      keys (templateArgToTemplateDirname ["tutorial", "__proto__", "basic"]) =
        ["default", "tutorial", "basic"] ∧
      keys (templateArgToTemplateDirname ["tutorial", "basic"]) =
        ["default", "tutorial", "basic"] := by
  decide

/-- C2, as stated, fails: with a discovered directory called `default`, the
entry `default` of the registry holds `'default'`, not `DEFAULT_TEMPLATE_DIRNAME`. -/
theorem C2_fixed_entry_does_not_win :
    get (templateArgToTemplateDirname ["default"]) "default" = some (.str "default") ∧
      get (templateArgToTemplateDirname ["default"]) "default" ≠
        some (.str DEFAULT_TEMPLATE_DIRNAME) := by
  decide

/-- C2, amended. When the discovered names include `default`, the discovered
entry wins: `Object.assign` copies the reduced object after the fixed entry, so
`templateArgToTemplateDirname['default']` is `'default'`. -/
theorem C2_discovered_default_wins (names : List String) (h : "default" ∈ names) :
    getOwn (templateArgToTemplateDirname names) "default" = some (.str "default") ∧
      get (templateArgToTemplateDirname names) "default" = some (.str "default") := by
  have hown : getOwn (templateArgToTemplateDirname names) "default" = some (.str "default") := by
    rw [getOwn_registry, if_pos ⟨h, by decide⟩]
  exact ⟨hown, get_of_getOwn _ _ _ hown⟩

/-- C2, amended, at the names `tutorial`, `default`, `basic`. -/
theorem C2_discovered_default_wins_witness :
    "default" ∈ ["tutorial", "default", "basic"] ∧
      getOwn (templateArgToTemplateDirname ["tutorial", "default", "basic"]) "default" =
        some (.str "default") ∧
      get (templateArgToTemplateDirname ["tutorial", "default", "basic"]) "default" =
        some (.str "default") :=
  ⟨by decide, C2_discovered_default_wins ["tutorial", "default", "basic"] (by decide)⟩

/-- C3, at the failing input. The claim is that every discovered name, also
`__proto__`, has its own entry holding the name. For a directory called
`__proto__` the registry has no own entry, and reading the property gives
`%Object.prototype%`; a directory called `constructor` does get its entry. -/
theorem C3_proto_directory_has_no_entry :
    hasOwnProperty (templateArgToTemplateDirname ["__proto__"]) "__proto__" = false ∧
      getOwn (templateArgToTemplateDirname ["__proto__"]) "__proto__" = none ∧
      get (templateArgToTemplateDirname ["__proto__"]) "__proto__" = some objectPrototype ∧
      getOwn (templateArgToTemplateDirname ["constructor"]) "constructor" =
        some (.str "constructor") := by
  decide

/-- C4. When no discovered directory is called `default` (also when none is
discovered), the registry has its own entry `default`, and it holds
`DEFAULT_TEMPLATE_DIRNAME`, which is `'base'`. -/
theorem C4_default_entry (names : List String) (h : "default" ∉ names) :
    hasOwnProperty (templateArgToTemplateDirname names) "default" = true ∧
      getOwn (templateArgToTemplateDirname names) "default" =
        some (.str DEFAULT_TEMPLATE_DIRNAME) ∧
      get (templateArgToTemplateDirname names) "default" = some (.str DEFAULT_TEMPLATE_DIRNAME) ∧
      DEFAULT_TEMPLATE_DIRNAME = "base" := by
  have hown : getOwn (templateArgToTemplateDirname names) "default" =
      some (.str DEFAULT_TEMPLATE_DIRNAME) := by
    rw [getOwn_registry, if_neg (fun hc => h hc.1), if_pos rfl]
    rfl
  refine ⟨?_, hown, get_of_getOwn _ _ _ hown, rfl⟩
  unfold hasOwnProperty
  rw [hown]
  rfl

/-- C4 at the empty list of discovered names. -/
theorem C4_default_entry_witness :
    "default" ∉ ([] : List String) ∧
      hasOwnProperty (templateArgToTemplateDirname []) "default" = true ∧
      getOwn (templateArgToTemplateDirname []) "default" = some (.str DEFAULT_TEMPLATE_DIRNAME) ∧
      get (templateArgToTemplateDirname []) "default" = some (.str DEFAULT_TEMPLATE_DIRNAME) ∧
      DEFAULT_TEMPLATE_DIRNAME = "base" :=
  ⟨by decide, C4_default_entry [] (by decide)⟩

/-- C5, as stated, fails: the value the registry holds for `tutorial` is the
name `'tutorial'`, which is not an absolute path and is not the path of the
subdirectory `tutorial` of the examples root; the value for `default` is the
name `'base'`. -/
theorem C5_values_are_not_absolute_paths :
    getOwn (templateArgToTemplateDirname ["tutorial", "basic"]) "tutorial" =
        some (.str "tutorial") ∧
      isAbsolute (.str "tutorial") = false ∧
      MONOREPO_EXAMPLES_DIR "/" "/repo/packages/create-cave-app/lib" = "/repo/examples" ∧
      getOwn (templateArgToTemplateDirname ["tutorial", "basic"]) "tutorial" ≠
        some (.str (resolvePath "/"
          [MONOREPO_EXAMPLES_DIR "/" "/repo/packages/create-cave-app/lib", "tutorial"])) ∧
      getOwn (templateArgToTemplateDirname ["tutorial", "basic"]) "default" =
        some (.str "base") ∧
      isAbsolute (.str "base") = false := by
  decide

/-- C5, amended. Every value stored in the registry is a directory name, not
an absolute path: each entry holds the discovered name it is filed under or,
under `default`, the name `'base'`. For each discovered name `n` other than
`__proto__` (`n` the name of a directory entry) the value is `n` itself, and the
value for `default` is `'base'`, or `'default'` when a directory is called so.
The absolute path of the directory `n` is what resolving the name against the
examples root gives. -/
theorem C5_values_are_directory_names (names : List String) (n cwd : String)
    (examplesRoot : List String) (hn : n ∈ names) (hseg : IsSegment n) (hproto : n ≠ "__proto__")
    (hroot : ∀ s ∈ examplesRoot, IsSegment s) :
    getOwn (templateArgToTemplateDirname names) n = some (.str n) ∧
      isAbsolute (.str n) = false ∧
      resolvePath cwd [absolutePath examplesRoot, n] = absolutePath (examplesRoot ++ [n]) ∧
      getOwn (templateArgToTemplateDirname names) "default" =
        some (.str (if "default" ∈ names then "default" else DEFAULT_TEMPLATE_DIRNAME)) ∧
      isAbsolute (.str (if "default" ∈ names then "default" else DEFAULT_TEMPLATE_DIRNAME)) =
        false ∧
      ∀ (key : String) (v : JSValue), getOwn (templateArgToTemplateDirname names) key = some v →
        (key ∈ names ∧ v = .str key) ∨ (key = "default" ∧ v = .str DEFAULT_TEMPLATE_DIRNAME) := by
  refine ⟨?_, isAbsolute_str_eq_false n hseg.2.2.2, ?_, ?_, ?_, ?_⟩
  · rw [getOwn_registry, if_pos ⟨hn, hproto⟩]
  · apply resolvePath_append cwd examplesRoot [n] hroot
    intro s hs
    simp only [List.mem_singleton] at hs
    subst hs
    exact hseg
  · rw [getOwn_registry]
    by_cases h : "default" ∈ names
    · rw [if_pos ⟨h, by decide⟩, if_pos h]
    · rw [if_neg (fun hc => h hc.1), if_pos rfl, if_neg h]
      rfl
  · by_cases h : "default" ∈ names
    · rw [if_pos h]; decide
    · rw [if_neg h]; decide
  · intro key v hv
    rw [getOwn_registry] at hv
    by_cases h1 : key ∈ names ∧ key ≠ "__proto__"
    · rw [if_pos h1] at hv
      exact Or.inl ⟨h1.1, (Option.some.inj hv).symm⟩
    · rw [if_neg h1] at hv
      by_cases h2 : key = "default"
      · rw [if_pos h2] at hv
        exact Or.inr ⟨h2, (Option.some.inj hv).symm⟩
      · rw [if_neg h2] at hv
        exact absurd hv (by simp)

/-- C5, amended, at the names `tutorial`, `basic` and the examples root `/repo/examples`. -/
theorem C5_values_are_directory_names_witness :
    "tutorial" ∈ ["tutorial", "basic"] ∧ IsSegment "tutorial" ∧ "tutorial" ≠ "__proto__" ∧
      (∀ s ∈ ["repo", "examples"], IsSegment s) ∧
      getOwn (templateArgToTemplateDirname ["tutorial", "basic"]) "tutorial" =
        some (.str "tutorial") ∧
      isAbsolute (.str "tutorial") = false ∧
      resolvePath "/home" [absolutePath ["repo", "examples"], "tutorial"] =
        absolutePath (["repo", "examples"] ++ ["tutorial"]) ∧
      getOwn (templateArgToTemplateDirname ["tutorial", "basic"]) "default" =
        some (.str (if "default" ∈ ["tutorial", "basic"] then "default"
          else DEFAULT_TEMPLATE_DIRNAME)) ∧
      isAbsolute (.str (if "default" ∈ ["tutorial", "basic"] then "default"
          else DEFAULT_TEMPLATE_DIRNAME)) = false ∧
      ∀ (key : String) (v : JSValue),
        getOwn (templateArgToTemplateDirname ["tutorial", "basic"]) key = some v →
        (key ∈ ["tutorial", "basic"] ∧ v = .str key) ∨
          (key = "default" ∧ v = .str DEFAULT_TEMPLATE_DIRNAME) :=
  ⟨by decide, by decide, by decide, by decide,
    C5_values_are_directory_names ["tutorial", "basic"] "tutorial" "/home" ["repo", "examples"]
      (by decide) (by decide) (by decide) (by decide)⟩

/-- The plain property read on the registry reaches `%Object.prototype%`: for
`constructor` and `toString` it gives the inherited function, for an unknown
name `undefined`. The resolver looks identifiers up among the keys instead. -/
theorem read_of_inherited_names :
    get (templateArgToTemplateDirname ["tutorial", "basic"]) "constructor" =
        some (.intrinsic "%Object%") ∧
      get (templateArgToTemplateDirname ["tutorial", "basic"]) "toString" =
        some (.intrinsic "%Object.prototype.toString%") ∧
      get (templateArgToTemplateDirname ["tutorial", "basic"]) "nonexistent-xyz" =
        some .undefined := by
  decide

/-- The resolver returns the recorded value for a key of the registry whose
directory exists: `'base'` for no identifier, the name for a discovered name. -/
theorem resolve_of_registered (names : List String) (dirExists : String → Bool) :
    ("default" ∉ names → dirExists DEFAULT_TEMPLATE_DIRNAME = true →
        resolve (templateArgToTemplateDirname names) dirExists none =
          .path DEFAULT_TEMPLATE_DIRNAME) ∧
      ∀ n ∈ names, n ≠ "__proto__" → dirExists n = true →
        resolve (templateArgToTemplateDirname names) dirExists (some n) = .path n := by
  constructor
  · intro h hd
    have hown : getOwn (templateArgToTemplateDirname names) "default" =
        some (.str DEFAULT_TEMPLATE_DIRNAME) := by
      rw [getOwn_registry, if_neg (fun hc => h hc.1), if_pos rfl]
      rfl
    unfold resolve
    simp only [Option.getD_none, hown, hd, if_true]
  · intro n hn hproto hd
    have hown : getOwn (templateArgToTemplateDirname names) n = some (.str n) := by
      rw [getOwn_registry, if_pos ⟨hn, hproto⟩]
    unfold resolve
    simp only [Option.getD_some, hown, hd, if_true]

/-- C6. For an identifier `s` that is neither `default` nor a discovered name
(also one that names a member of `%Object.prototype%`, such as `constructor` or
`toString`), looking `s` up among the entries of the registry finds nothing: it
has no own entry and is not among the keys. So resolving `s` fails with
`TemplateNotFoundError`, naming `s` and listing the keys, and never returns a
path, whatever directories exist. -/
theorem C6_unknown_identifier (names : List String) (s : String) (dirExists : String → Bool)
    (hdefault : s ≠ "default") (hnames : s ∉ names) :
    getOwn (templateArgToTemplateDirname names) s = none ∧
      hasOwnProperty (templateArgToTemplateDirname names) s = false ∧
      s ∉ keys (templateArgToTemplateDirname names) ∧
      resolve (templateArgToTemplateDirname names) dirExists (some s) =
        .templateNotFoundError s (keys (templateArgToTemplateDirname names)) ∧
      ∀ p, resolve (templateArgToTemplateDirname names) dirExists (some s) ≠ .path p := by
  have hown : getOwn (templateArgToTemplateDirname names) s = none := by
    rw [getOwn_registry, if_neg (fun hc => hnames hc.1), if_neg hdefault]
  have hres : resolve (templateArgToTemplateDirname names) dirExists (some s) =
      .templateNotFoundError s (keys (templateArgToTemplateDirname names)) := by
    unfold resolve
    simp only [Option.getD_some, hown]
  refine ⟨hown, ?_, ?_, hres, ?_⟩
  · unfold hasOwnProperty
    rw [hown]
    rfl
  · rw [mem_keys_registry]
    exact fun hc => hc.elim (fun h => hnames h.1) hdefault
  · intro p hp
    rw [hres] at hp
    exact Resolution.noConfusion hp

/-- C6 at the identifier `constructor`, an inherited name, with the names
`tutorial`, `basic` and every directory existing. -/
theorem C6_unknown_identifier_witness :
    "constructor" ≠ "default" ∧ "constructor" ∉ ["tutorial", "basic"] ∧
      getOwn (templateArgToTemplateDirname ["tutorial", "basic"]) "constructor" = none ∧
      hasOwnProperty (templateArgToTemplateDirname ["tutorial", "basic"]) "constructor" =
        false ∧
      "constructor" ∉ keys (templateArgToTemplateDirname ["tutorial", "basic"]) ∧
      resolve (templateArgToTemplateDirname ["tutorial", "basic"]) (fun _ => true)
          (some "constructor") =
        .templateNotFoundError "constructor"
          (keys (templateArgToTemplateDirname ["tutorial", "basic"])) ∧
      ∀ p, resolve (templateArgToTemplateDirname ["tutorial", "basic"]) (fun _ => true)
          (some "constructor") ≠ .path p :=
  ⟨by decide, by decide,
    C6_unknown_identifier ["tutorial", "basic"] "constructor" (fun _ => true)
      (by decide) (by decide)⟩

/-- C7, as stated, fails: with the discovered names `tutorial`, `2048` the
identifiers are enumerated `2048`, `default`, `tutorial`, the digit string
before `default`; with `tutorial`, `__proto__`, `7` they are `7`, `default`,
`tutorial`. -/
theorem C7_digit_name_comes_first :
    ["tutorial", "2048"].Nodup ∧ "default" ∉ ["tutorial", "2048"] ∧
      keys (templateArgToTemplateDirname ["tutorial", "2048"]) =
        ["2048", "default", "tutorial"] ∧
      keys (templateArgToTemplateDirname ["tutorial", "2048"]) ≠
        "default" :: ["tutorial", "2048"] ∧
      ["tutorial", "__proto__", "7"].Nodup ∧ "default" ∉ ["tutorial", "__proto__", "7"] ∧
      keys (templateArgToTemplateDirname ["tutorial", "__proto__", "7"]) =
        ["7", "default", "tutorial"] := by
  decide

/-- C7, amended. For distinct discovered names, none of them `default` or
`__proto__`, the valid identifiers are enumerated from the registry as: the names that are array
indices (canonical digit strings up to `2^32 - 2`) in ascending numeric order,
then `default`, then the other names in the order the scan returned them. When
no name is an array index that is `default` followed by the names as scanned. -/
theorem C7_enumeration_order (names : List String) (hnodup : names.Nodup)
    (hdefault : "default" ∉ names) (hproto : "__proto__" ∉ names) :
    keys (templateArgToTemplateDirname names) =
        sortIndexKeys (names.filter isArrayIndex) ++
          "default" :: names.filter (fun n => !isArrayIndex n) ∧
      (sortIndexKeys (names.filter isArrayIndex)).Perm (names.filter isArrayIndex) ∧
      IndexSorted (sortIndexKeys (names.filter isArrayIndex)) ∧
      ((∀ n ∈ names, isArrayIndex n = false) →
        keys (templateArgToTemplateDirname names) = "default" :: names) := by
  have hkeys := keys_registry names hnodup hdefault hproto
  refine ⟨hkeys, sortIndexKeys_perm _, sortIndexKeys_sorted _, ?_⟩
  intro hall
  have h1 : names.filter isArrayIndex = [] := by
    rw [List.filter_eq_nil_iff]
    intro a ha
    simp [hall a ha]
  have h2 : names.filter (fun n => !isArrayIndex n) = names := by
    rw [List.filter_eq_self]
    intro a ha
    simp [hall a ha]
  rw [hkeys, h1, h2]
  rfl

/-- C7, amended, at the names `tutorial`, `basic`: the identifiers are listed `default`, `tutorial`, `basic`. -/
theorem C7_enumeration_order_witness :
    ["tutorial", "basic"].Nodup ∧ "default" ∉ ["tutorial", "basic"] ∧
      "__proto__" ∉ ["tutorial", "basic"] ∧
      (∀ n ∈ ["tutorial", "basic"], isArrayIndex n = false) ∧
      keys (templateArgToTemplateDirname ["tutorial", "basic"]) =
        "default" :: ["tutorial", "basic"] :=
  ⟨by decide, by decide, by decide, by decide,
    (C7_enumeration_order ["tutorial", "basic"] (by decide) (by decide) (by decide)).2.2.2
      (by decide)⟩

/-- C8. Resolving with no identifier is resolving `'default'`: for every
registry and whatever directories exist, the two give the same outcome. When
the registry records a path under the key `default` and its directory exists,
both return that path; in every other case both fail with the same
`TemplateNotFoundError`, naming `default` and listing the keys of the registry. -/
theorem C8_no_identifier_is_default (registry : JSObject) (dirExists : String → Bool) :
    resolve registry dirExists none = resolve registry dirExists (some "default") ∧
      ((∃ p, getOwn registry "default" = some (.str p) ∧ dirExists p = true ∧
          resolve registry dirExists none = .path p ∧
          resolve registry dirExists (some "default") = .path p) ∨
        ((∀ p, getOwn registry "default" = some (.str p) → dirExists p = false) ∧
          resolve registry dirExists none =
            .templateNotFoundError "default" (keys registry) ∧
          resolve registry dirExists (some "default") =
            .templateNotFoundError "default" (keys registry))) := by
  refine ⟨rfl, ?_⟩
  unfold resolve
  simp only [Option.getD_none, Option.getD_some]
  cases hg : getOwn registry "default" with
  | none => exact Or.inr ⟨fun p hp => by simp at hp, rfl, rfl⟩
  | some v =>
    cases v with
    | str q =>
      by_cases hd : dirExists q = true
      · exact Or.inl ⟨q, rfl, hd, by simp [hd], by simp [hd]⟩
      · refine Or.inr ⟨?_, by simp [hd], by simp [hd]⟩
        intro p hp
        have hqp : q = p := JSValue.str.inj (Option.some.inj hp)
        rw [← hqp]
        simpa using hd
    | _ => exact Or.inr ⟨fun p hp => by simp at hp, rfl, rfl⟩

/-- C9. With `resolvePath` read as `path.resolve`: when the module's directory is
`R/packages/create-cave-app/lib` for an absolute normalised `R`, then
`MONOREPO_ROOT` is `R`, `PACKAGE_ROOT` is `R/packages/create-cave-app`, the
parent of the module's directory, `PACKAGE_TEMPLATES_DIR` is
`PACKAGE_ROOT/templates` and `MONOREPO_EXAMPLES_DIR` is `R/examples`. The
templates directory lies under `PACKAGE_ROOT`; the examples root does not: it is
`examples` two levels above `PACKAGE_ROOT`. -/
theorem C9_constants_layout (cwd : String) (root : List String)
    (hroot : ∀ s ∈ root, IsSegment s) :
    MONOREPO_ROOT cwd (absolutePath (root ++ ["packages", "create-cave-app", "lib"])) =
        absolutePath root ∧
      PACKAGE_ROOT cwd (absolutePath (root ++ ["packages", "create-cave-app", "lib"])) =
        absolutePath (root ++ ["packages", "create-cave-app"]) ∧
      PACKAGE_ROOT cwd (absolutePath (root ++ ["packages", "create-cave-app", "lib"])) =
        resolvePath cwd [absolutePath (root ++ ["packages", "create-cave-app", "lib"]), ".."] ∧
      PACKAGE_TEMPLATES_DIR cwd (absolutePath (root ++ ["packages", "create-cave-app", "lib"])) =
        absolutePath (root ++ ["packages", "create-cave-app", "templates"]) ∧
      MONOREPO_EXAMPLES_DIR cwd (absolutePath (root ++ ["packages", "create-cave-app", "lib"])) =
        absolutePath (root ++ ["examples"]) ∧
      IsUnder
        (PACKAGE_TEMPLATES_DIR cwd (absolutePath (root ++ ["packages", "create-cave-app", "lib"])))
        (PACKAGE_ROOT cwd (absolutePath (root ++ ["packages", "create-cave-app", "lib"]))) ∧
      ¬ IsUnder
        (MONOREPO_EXAMPLES_DIR cwd (absolutePath (root ++ ["packages", "create-cave-app", "lib"])))
        (PACKAGE_ROOT cwd (absolutePath (root ++ ["packages", "create-cave-app", "lib"]))) ∧
      MONOREPO_EXAMPLES_DIR cwd (absolutePath (root ++ ["packages", "create-cave-app", "lib"])) =
        resolvePath cwd
          [PACKAGE_ROOT cwd (absolutePath (root ++ ["packages", "create-cave-app", "lib"])),
            "..", "..", "examples"] := by
  have hpk : IsSegment "packages" := by decide
  have hcca : IsSegment "create-cave-app" := by decide
  have hlib : IsSegment "lib" := by decide
  have hmono : MONOREPO_ROOT cwd (absolutePath (root ++ ["packages", "create-cave-app", "lib"]))
      = absolutePath root := resolvePath_up_three cwd root _ _ _ hroot hpk hcca hlib
  have hpackage : PACKAGE_ROOT cwd (absolutePath (root ++ ["packages", "create-cave-app", "lib"]))
      = absolutePath (root ++ ["packages", "create-cave-app"]) := by
    unfold PACKAGE_ROOT
    rw [hmono]
    exact resolvePath_append cwd root ["packages", "create-cave-app"] hroot (by decide)
  have hpkgSegs : ∀ s ∈ root ++ ["packages", "create-cave-app"], IsSegment s := by
    intro s hs
    simp only [List.mem_append, List.mem_cons, List.mem_singleton, List.not_mem_nil,
      or_false] at hs
    rcases hs with hs | rfl | rfl
    · exact hroot s hs
    · exact hpk
    · exact hcca
  have htemplates : PACKAGE_TEMPLATES_DIR cwd
      (absolutePath (root ++ ["packages", "create-cave-app", "lib"]))
      = absolutePath (root ++ ["packages", "create-cave-app", "templates"]) := by
    unfold PACKAGE_TEMPLATES_DIR
    rw [hpackage, resolvePath_append cwd _ ["templates"] hpkgSegs (by decide)]
    simp
  have hexamples : MONOREPO_EXAMPLES_DIR cwd
      (absolutePath (root ++ ["packages", "create-cave-app", "lib"]))
      = absolutePath (root ++ ["examples"]) := by
    unfold MONOREPO_EXAMPLES_DIR
    rw [hmono]
    exact resolvePath_append cwd root ["examples"] hroot (by decide)
  refine ⟨hmono, hpackage, ?_, htemplates, hexamples, ?_, ?_, ?_⟩
  · rw [hpackage]
    have h := resolvePath_parent cwd (root ++ ["packages", "create-cave-app"]) "lib" hpkgSegs hlib
    rw [← h]
    simp
  · rw [htemplates, hpackage]
    have h := absolutePath_isUnder (root ++ ["packages", "create-cave-app"]) "templates"
      (by simp)
    simpa using h
  · rw [hexamples, hpackage]
    exact examples_not_under_package root
  · rw [hexamples, hpackage, resolvePath_absolute cwd _ _ hpkgSegs (by decide)]
    have hsplit : splitOnSlash (relativeTail (["..", "..", "examples"].map String.data))
        = [['.', '.'], ['.', '.'], "examples".data, []] := by decide
    have hex : CleanSegment "examples".data :=
      cleanSegment_of_isSegment "examples" (by decide)
    rw [hsplit]
    simp only [List.map_append, List.map_cons, List.map_nil, List.reverse_append,
      List.reverse_cons, List.reverse_nil, List.nil_append, List.cons_append, List.foldl_cons,
      List.foldl_nil, normalizeStep_empty]
    rw [normalizeStep_dotdot _ _ _ hcca, normalizeStep_dotdot _ _ _ hpk,
      normalizeStep_clean _ _ _ hex]
    simp [absolutePath]

/-- C9 at the root `/srv/cave-app`. -/
theorem C9_constants_layout_witness :
    (∀ s ∈ ["srv", "cave-app"], IsSegment s) ∧
      MONOREPO_ROOT "/home" "/srv/cave-app/packages/create-cave-app/lib" = "/srv/cave-app" ∧
      PACKAGE_ROOT "/home" "/srv/cave-app/packages/create-cave-app/lib" =
        "/srv/cave-app/packages/create-cave-app" ∧
      PACKAGE_ROOT "/home" "/srv/cave-app/packages/create-cave-app/lib" =
        resolvePath "/home" ["/srv/cave-app/packages/create-cave-app/lib", ".."] ∧
      PACKAGE_TEMPLATES_DIR "/home" "/srv/cave-app/packages/create-cave-app/lib" =
        "/srv/cave-app/packages/create-cave-app/templates" ∧
      MONOREPO_EXAMPLES_DIR "/home" "/srv/cave-app/packages/create-cave-app/lib" =
        "/srv/cave-app/examples" ∧
      IsUnder (PACKAGE_TEMPLATES_DIR "/home" "/srv/cave-app/packages/create-cave-app/lib")
        (PACKAGE_ROOT "/home" "/srv/cave-app/packages/create-cave-app/lib") ∧
      ¬ IsUnder (MONOREPO_EXAMPLES_DIR "/home" "/srv/cave-app/packages/create-cave-app/lib")
        (PACKAGE_ROOT "/home" "/srv/cave-app/packages/create-cave-app/lib") ∧
      MONOREPO_EXAMPLES_DIR "/home" "/srv/cave-app/packages/create-cave-app/lib" =
        resolvePath "/home"
          [PACKAGE_ROOT "/home" "/srv/cave-app/packages/create-cave-app/lib",
            "..", "..", "examples"] :=
  ⟨by decide, C9_constants_layout "/home" ["srv", "cave-app"] (by decide)⟩

/-- C10, as stated, fails: a viewport key `children` is not passed through to
`<MapGL>` (the two overlays are its children instead), a viewport key `key` is
taken by React and is no prop, and a viewport key `maxZoom` holding `undefined`
arrives as the default `MapGL` declares. A key such as `zoom` is passed through. -/
theorem C10_children_and_key_are_not_passed :
    "children" ∉ fixedAttributeNames ∧ "key" ∉ fixedAttributeNames ∧
      "maxZoom" ∉ fixedAttributeNames ∧
      getOwn sampleViewport "children" = some (.str "x") ∧
      getOwn sampleViewport "key" = some (.str "k") ∧
      getOwn sampleViewport "maxZoom" = some .undefined ∧
      getOwn (firstChild (Map samplePackages ⟨sampleViewport, false, .ref 0⟩)).props
        "children" = none ∧
      getOwn (firstChild (Map samplePackages ⟨sampleViewport, false, .ref 0⟩)).props
        "key" = none ∧
      getOwn (firstChild (Map samplePackages ⟨sampleViewport, false, .ref 0⟩)).props
        "maxZoom" = some (.num "24") ∧
      getOwn (firstChild (Map samplePackages ⟨sampleViewport, false, .ref 0⟩)).props
        "zoom" = some (.num "3") ∧
      (firstChild (Map samplePackages ⟨sampleViewport, false, .ref 0⟩)).children.map
        ReactNode.types = [["DeckGLOverlay"], ["GroundRadial"]] := by
  decide

/-- C10, amended. For every viewport object, boolean `isConnected` and
`dispatch`, and whatever default props the component types declare, the tree
`Map` returns contains `ControlOverlay` exactly when `isConnected` is true; the
children of `<MapGL>` are always `<DeckGLOverlay />` and `<GroundRadial />`; the
props `mapStyle`, `onViewportChange`, `mapboxApiAccessToken`, `maxPitch` and
`touchRotate` of `<MapGL>` have their fixed values whatever the viewport
carries; a viewport key `children` is not a prop (the overlays are the
children), and a name React reserves (`key`, `ref`, `__self`, `__source`) is
never taken from the viewport: such a prop is absent or the default `MapGL`
declares. Every other viewport key except `__proto__` is passed through
unchanged when its value is not `undefined`; when its value is `undefined` the
prop is the default `MapGL` declares for it, `undefined` if it declares none. A
name the viewport does not carry and the attributes do not fix is no prop, or
is the default `MapGL` declares. -/
theorem C10_map_tree (pkgs : Packages) (p : MapProps) (key : String) (v : JSValue)
    (hfixed : key ∉ fixedAttributeNames) (hreserved : key ∉ RESERVED_PROPS)
    (hchildren : key ≠ "children") (hproto : key ≠ "__proto__")
    (hv : getOwn p.viewport key = some v) :
    ("ControlOverlay" ∈ (Map pkgs p).types ↔ p.isConnected = true) ∧
      (Map pkgs p).types =
        ["Div", "MapGL", "DeckGLOverlay", "GroundRadial"] ++
          (if p.isConnected then ["ControlOverlay"] else []) ∧
      firstChild (Map pkgs p) =
        .element "MapGL" (firstChild (Map pkgs p)).props
          [createElement pkgs "DeckGLOverlay" none [],
            createElement pkgs "GroundRadial" none []] ∧
      (firstChild (Map pkgs p)).types = ["MapGL", "DeckGLOverlay", "GroundRadial"] ∧
      getOwn (firstChild (Map pkgs p)).props "mapStyle" =
        some (.str "mapbox://styles/mapbox/dark-v9") ∧
      getOwn (firstChild (Map pkgs p)).props "maxPitch" = some (.num "59.9") ∧
      getOwn (firstChild (Map pkgs p)).props "touchRotate" = some (.bool true) ∧
      getOwn (firstChild (Map pkgs p)).props "mapboxApiAccessToken" =
        some (.str MAPBOX_TOKEN) ∧
      getOwn (firstChild (Map pkgs p)).props "onViewportChange" =
        some (.viewportChangeHandler p.dispatch) ∧
      getOwn (firstChild (Map pkgs p)).props "children" = none ∧
      (∀ r ∈ RESERVED_PROPS,
        getOwn (firstChild (Map pkgs p)).props r = none ∨
          getOwn (firstChild (Map pkgs p)).props r =
            some ((getOwn (mapGLDefaults pkgs) r).getD .undefined)) ∧
      getOwn (firstChild (Map pkgs p)).props key =
        some (if v = .undefined then (getOwn (mapGLDefaults pkgs) key).getD .undefined
          else v) ∧
      ∀ k, k ∉ fixedAttributeNames → k ≠ "children" → k ≠ "__proto__" →
        getOwn p.viewport k = none →
        getOwn (firstChild (Map pkgs p)).props k = none ∨
          getOwn (firstChild (Map pkgs p)).props k =
            some ((getOwn (mapGLDefaults pkgs) k).getD .undefined) := by
  have hattr : ∀ k, getOwn (mapGLAttributes p.dispatch) k =
      lookupOwn
        [ ("mapStyle", .str "mapbox://styles/mapbox/dark-v9"),
          ("onViewportChange", .viewportChangeHandler p.dispatch),
          ("mapboxApiAccessToken", .str MAPBOX_TOKEN),
          ("maxPitch", .num "59.9"),
          ("touchRotate", .bool true) ] k := by
    intro k
    rw [mapGLAttributes_eq]
    rfl
  have hfix : ∀ (k : String) (u : JSValue), k ≠ "__proto__" → k ≠ "children" →
      k ∉ RESERVED_PROPS → getOwn (mapGLAttributes p.dispatch) k = some u →
      u ≠ .undefined → getOwn (firstChild (Map pkgs p)).props k = some u := by
    intro k u h1 h2 h3 h4 h5
    have hgiven : getOwn (mapGLGiven p) k = some u := by
      rw [getOwn_mapGLGiven p k h1, if_neg (by simp [h2, h3]), h4]
      rfl
    rw [getOwn_mapGL_props pkgs p k u h1 h2 hgiven, if_neg h5]
  have htypes := types_Map pkgs p
  have hlookup : ∀ k, k ∉ fixedAttributeNames →
      lookupOwn
        [ ("mapStyle", .str "mapbox://styles/mapbox/dark-v9"),
          ("onViewportChange", .viewportChangeHandler p.dispatch),
          ("mapboxApiAccessToken", .str MAPBOX_TOKEN),
          ("maxPitch", .num "59.9"),
          ("touchRotate", .bool true) ] k = none := by
    intro k hk
    simp only [fixedAttributeNames, List.mem_cons, List.mem_singleton, List.not_mem_nil,
      or_false, not_or] at hk
    obtain ⟨h1, h2, h3, h4, h5⟩ := hk
    have e1 : ¬ "mapStyle" = k := fun e => h1 e.symm
    have e2 : ¬ "onViewportChange" = k := fun e => h2 e.symm
    have e3 : ¬ "mapboxApiAccessToken" = k := fun e => h3 e.symm
    have e4 : ¬ "maxPitch" = k := fun e => h4 e.symm
    have e5 : ¬ "touchRotate" = k := fun e => h5 e.symm
    simp [lookupOwn_cons, lookupOwn_nil, e1, e2, e3, e4, e5]
  refine ⟨?_, htypes, ?_, ?_, ?_, ?_, ?_, ?_, ?_, ?_, ?_, ?_, ?_⟩
  · rw [htypes]
    cases h : p.isConnected <;> simp
  · rw [firstChild_Map]
    rfl
  · rw [firstChild_Map]
    simp [createElement, defaultChildren, ReactNode.types, ReactNode.types.typesOfAll]
  · exact hfix _ _ (by decide) (by decide) (by decide)
      (by rw [hattr]; simp [lookupOwn_cons]) (by simp)
  · exact hfix _ _ (by decide) (by decide) (by decide)
      (by rw [hattr]; simp [lookupOwn_cons]) (by simp)
  · exact hfix _ _ (by decide) (by decide) (by decide)
      (by rw [hattr]; simp [lookupOwn_cons]) (by simp)
  · exact hfix _ _ (by decide) (by decide) (by decide)
      (by rw [hattr]; simp [lookupOwn_cons]) (by simp)
  · exact hfix _ _ (by decide) (by decide) (by decide)
      (by rw [hattr]; simp [lookupOwn_cons]) (by simp)
  · rw [props_firstChild_Map, getOwn_foldl_defaultStep_children,
      getOwn_mapGLGiven p _ (by decide)]
    simp
  · intro r hr
    have hrp : r ≠ "__proto__" := by
      intro e
      subst e
      exact absurd hr (by decide)
    have hrc : r ≠ "children" := by
      intro e
      subst e
      exact absurd hr (by decide)
    rw [props_firstChild_Map]
    apply getOwn_foldl_defaultStep_none pkgs _ r hrp hrc
    rw [getOwn_mapGLGiven p r hrp]
    simp [hr]
  · have hgiven : getOwn (mapGLGiven p) key = some v := by
      rw [getOwn_mapGLGiven p key hproto, if_neg (by simp [hchildren, hreserved]), hattr,
        hlookup key hfixed, hv]
      rfl
    exact getOwn_mapGL_props pkgs p key v hproto hchildren hgiven
  · intro k hk hkc hkp hnone
    rw [props_firstChild_Map]
    apply getOwn_foldl_defaultStep_none pkgs _ k hkp hkc
    rw [getOwn_mapGLGiven p k hkp]
    split
    · rfl
    · rw [hattr, hlookup k hk, hnone]
      rfl

/-- C10, amended, at the sample viewport, connected, with the sample packages:
the key `maxZoom`, undefined in the viewport, arrives as the default `24`. -/
theorem C10_map_tree_witness :
    "maxZoom" ∉ fixedAttributeNames ∧ "maxZoom" ∉ RESERVED_PROPS ∧ "maxZoom" ≠ "children" ∧
      "maxZoom" ≠ "__proto__" ∧ getOwn sampleViewport "maxZoom" = some .undefined ∧
      getOwn (firstChild (Map samplePackages ⟨sampleViewport, true, .ref 0⟩)).props "maxZoom" =
        some (.num "24") ∧
      getOwn (firstChild (Map samplePackages ⟨sampleViewport, true, .ref 0⟩)).props "maxPitch" =
        some (.num "59.9") ∧
      ("ControlOverlay" ∈ (Map samplePackages ⟨sampleViewport, true, .ref 0⟩).types ↔
        (⟨sampleViewport, true, .ref 0⟩ : MapProps).isConnected = true) :=
  have h := C10_map_tree samplePackages ⟨sampleViewport, true, .ref 0⟩ "maxZoom" .undefined
    (by decide) (by decide) (by decide) (by decide) (by decide)
  ⟨by decide, by decide, by decide, by decide, by decide,
    h.2.2.2.2.2.2.2.2.2.2.2.1, h.2.2.2.2.2.1, h.1⟩

end CaveApp
